import Mathlib

/-!
# Car odometry batch calibration driver: a verification development

Shallow embedding of the parts of `calibrateCarOdometryMorselBatch.cpp`,
`ErrorTermWheel.h` and `CalibratorOptions.cpp` that the specification talks
about.  The C++ type `double` is embedded as an arbitrary linearly ordered
field `K` (exact arithmetic, no rounding); the theorems that need square roots
and the constant `M_PI` instantiate `K` with the real numbers, `sqrt` with
`Real.sqrt` and `M_PI` with `Real.pi`.
-/

set_option autoImplicit false

namespace Aslam

/-! ## Fixed-size vectors (`Eigen::Matrix<double, 3, 1>`) -/

/-- Three-component column vector, `Eigen::Matrix<double, 3, 1>`. -/
structure Vec3 (K : Type) where
  x : K
  y : K
  z : K
deriving DecidableEq

namespace Vec3

variable {K : Type} [LinearOrderedField K]

/-- Component-wise sum `a + b`. -/
def add (a b : Vec3 K) : Vec3 K := ⟨a.x + b.x, a.y + b.y, a.z + b.z⟩

/-- Component-wise difference `a - b`. -/
def sub (a b : Vec3 K) : Vec3 K := ⟨a.x - b.x, a.y - b.y, a.z - b.z⟩

/-- Vector times scalar, `a * c`. -/
def scale (a : Vec3 K) (c : K) : Vec3 K := ⟨a.x * c, a.y * c, a.z * c⟩

/-- Vector divided by a scalar, `a / c`. -/
def divScalar (a : Vec3 K) (c : K) : Vec3 K := ⟨a.x / c, a.y / c, a.z / c⟩

/-- Cross product `a.cross(b)`. -/
def cross (a b : Vec3 K) : Vec3 K :=
  ⟨a.y * b.z - a.z * b.y, a.z * b.x - a.x * b.z, a.x * b.y - a.y * b.x⟩

/-- Sum of the squared components, `squaredNorm()`. -/
def squaredNorm (a : Vec3 K) : K := a.x * a.x + a.y * a.y + a.z * a.z

/-- Euclidean norm `norm()`, the square root of `squaredNorm()`; the square
root function is supplied by the caller. -/
def norm (sqrt : K → K) (a : Vec3 K) : K := sqrt a.squaredNorm

end Vec3

/-! ## Rotation-vector disambiguation (driver lines 323-348) -/

section Flip

variable {K : Type} [LinearOrderedField K]

/-- The values taken by `s` in `for (int s = -3; s <= 4; ++s)`. -/
def flipRange : List Int := [-3, -2, -1, 0, 1, 2, 3, 4]

/-- The candidate `aa = axis * (angle + M_PI * 2.0 * s)`. -/
def flipCandidate (pi : K) (axis : Vec3 K) (angle : K) (s : Int) : Vec3 K :=
  axis.scale (angle + pi * 2 * (s : K))

/-- One iteration of the search loop on the pair `(best_r, best_dist)`. -/
def flipStep (sqrt : K → K) (pi : K) (pr axis : Vec3 K) (angle : K)
    (best : Vec3 K × K) (s : Int) : Vec3 K × K :=
  let aa := flipCandidate pi axis angle s
  let dist := (aa.sub pr).norm sqrt
  if dist < best.2 then (aa, dist) else best

/-- The block "ensure rotation vector do not flip": from the previous rotation
vector `pr` and the current one `r`, the vector written back to
`pose.tail<3>()`. -/
def ensureNoFlip (sqrt : K → K) (pi : K) (pr r : Vec3 K) : Vec3 K :=
  let angle := r.norm sqrt
  let axis := r.divScalar angle
  let best_r := r
  let best_dist := (best_r.sub pr).norm sqrt
  (flipRange.foldl (flipStep sqrt pi pr axis angle) (best_r, best_dist)).1

/-- The representation of the rotation `r` whose angle is shifted by `k` full
turns, `a * (‖r‖ + 2 * pi * k)` with `a = r / ‖r‖`, as the specification
writes it. -/
def congruentRep (sqrt : K → K) (pi : K) (r : Vec3 K) (k : Int) : Vec3 K :=
  (r.divScalar (r.norm sqrt)).scale (r.norm sqrt + 2 * pi * (k : K))

/-- The unit vector along the first coordinate axis. -/
def unitX (K : Type) [LinearOrderedField K] : Vec3 K := ⟨1, 0, 0⟩

end Flip

/-! ## Knot-count selection (driver lines 403-411) -/

section Segments

variable {K : Type} [LinearOrderedField K] [FloorRing K]

/-- Smallest value of the C++ type `int` (32 bits). -/
def INT_MIN : Int := -2147483648

/-- Largest value of the C++ type `int` (32 bits). -/
def INT_MAX : Int := 2147483647

/-- Conversion of a `double` to `int`: the fractional part is discarded
(truncation toward zero); the conversion has no defined result, `none`, when
the truncated value is not representable in `int`. -/
def truncToInt (x : K) : Option Int :=
  let t : Int := if 0 ≤ x then ⌊x⌋ else ⌈x⌉
  if INT_MIN ≤ t ∧ t ≤ INT_MAX then some t else none

/-- Conversion of a `size_t` to `int`: the low 32 bits, read as a signed
number. -/
def sizeToInt (n : Nat) : Int := ((n : Int) + 2 ^ 31) % 2 ^ 32 - 2 ^ 31

/-- The constant `measPerSecDesired`. -/
def measPerSecDesired : Int := 5

/-- Selection of `numSegments` from the number `n` of measurements
(`timestampsParse.size()`) and `elapsedTime`:
`measPerSec = n / elapsedTime` converted to `int`; when it exceeds
`measPerSecDesired` the result is `measPerSecDesired * elapsedTime` converted
to `int`, otherwise `n` converted to `int`. -/
def selectNumSegments (n : Nat) (elapsedTime : K) : Option Int :=
  match truncToInt ((n : K) / elapsedTime) with
  | none => none
  | some measPerSec =>
    if measPerSec > measPerSecDesired then
      truncToInt ((measPerSecDesired : K) * elapsedTime)
    else
      some (sizeToInt n)

end Segments

/-! ## Measurement vectors -/

/-- Six-component column vector, `Eigen::Matrix<double, 6, 1>`, split into
`head<3>()` (components 0..2) and `tail<3>()` (components 3..5). -/
structure Vec6 (K : Type) where
  head : Vec3 K
  tail : Vec3 K
deriving DecidableEq

/-- Five-component column vector, `Eigen::Matrix<double, 5, 1>`. -/
structure Vec5 (K : Type) where
  c0 : K
  c1 : K
  c2 : K
  c3 : K
  c4 : K
deriving DecidableEq

/-! ## Wheel error term (`ErrorTermWheel.h`) -/

/-- Base class template `aslam::backend::ErrorTermFs<C>` of the optimizer
library: an error term whose error vector has the fixed size `C`. -/
structure ErrorTermFs (C : Nat) (K : Type) where
  error : Fin C → K

/-- Size of the error vector of an `ErrorTermFs<C>`, the template
argument. -/
def ErrorTermFs.dimension {C : Nat} {K : Type} (_ : ErrorTermFs C K) : Nat := C

/-- Number of rows and columns of `ErrorTermWheel::Covariance`, which is
`typedef Eigen::Matrix3d Covariance`. -/
def ErrorTermWheel.covarianceSize : Nat := 3

/-- The type `ErrorTermWheel::Covariance`. -/
abbrev ErrorTermWheel.Covariance (K : Type) : Type :=
  Matrix (Fin ErrorTermWheel.covarianceSize) (Fin ErrorTermWheel.covarianceSize) K

/-- The class `ErrorTermWheel : public aslam::backend::ErrorTermFs<3>` with its
protected members `_v_v_mw`, `_k`, `_measurement`, `_sigma2Wheel` and
`_frontEnabled` (expressions are embedded by their values). -/
structure ErrorTermWheel (K : Type) extends ErrorTermFs 3 K where
  v_v_mw : Vec3 K
  k : K
  measurement : K
  sigma2Wheel : ErrorTermWheel.Covariance K
  frontEnabled : Bool

/-- The constructor `ErrorTermWheel(v_v_mw, k, measurement, sigma2Wheel,
frontEnabled = false)`; the error vector starts at zero. -/
def ErrorTermWheel.construct {K : Type} [LinearOrderedField K] (v_v_mw : Vec3 K) (k : K)
    (measurement : K) (sigma2Wheel : ErrorTermWheel.Covariance K)
    (frontEnabled : Bool := false) : ErrorTermWheel K :=
  { error := fun _ => 0, v_v_mw := v_v_mw, k := k, measurement := measurement,
    sigma2Wheel := sigma2Wheel, frontEnabled := frontEnabled }

/-! ## Problem assembly in the batch driver (driver lines 434-548) -/

section Assembly

variable {K : Type} [LinearOrderedField K]

/-- The design variables the driver creates: the control-point variables
`bspdv->designVariable(i)` of the B-spline, the car parameter vector `cpdv`
(`VectorDesignVariable<11>`), the extrinsic translation `t_io_dv`
(`EuclideanPoint`) and the extrinsic rotation `C_io_dv`
(`RotationQuaternion`). -/
inductive DesignVariableId where
  | spline (i : Nat)
  | cpdv
  | t_io_dv
  | C_io_dv
deriving DecidableEq

/-- Number of elements of the car parameter vector,
`VectorDesignVariable<11>`. -/
def cpdvSize : Nat := 11

/-- A design variable of the optimizer library with its active flag. -/
structure DesignVariable where
  id : DesignVariableId
  active : Bool
deriving DecidableEq

/-- A freshly constructed design variable; `initiallyActive` is the value the
optimizer library gives the active flag of a new design variable. -/
def DesignVariable.create (initiallyActive : Bool) (id : DesignVariableId) :
    DesignVariable :=
  { id := id, active := initiallyActive }

/-- The call `setActive(active)`. -/
def DesignVariable.setActive (dv : DesignVariable) (active : Bool) : DesignVariable :=
  { dv with active := active }

/-- Covariance matrix `Q` of the pose measurements (driver lines 77-84). -/
def Q : Matrix (Fin 6) (Fin 6) K :=
  Matrix.diagonal ![1 / 10 ^ 4, 1 / 10 ^ 4, 1 / 10 ^ 4, 1 / 10 ^ 7, 1 / 10 ^ 7, 1 / 10 ^ 7]

/-- Covariance matrix `R` of the odometry measurements (driver lines
87-93). -/
def R : Matrix (Fin 5) (Fin 5) K :=
  Matrix.diagonal ![1 / 10 ^ 3, 1 / 10 ^ 3, 1 / 10 ^ 3, 1 / 10 ^ 3, 1 / 10 ^ 3]

/-- A pose error term as the driver constructs it,
`ErrorTermPose(bspdv->transformation(t), xm, Q)`: the time `t` at which the
spline transformation is taken, the measurement `xm` and the covariance. -/
structure ErrorTermPose (K : Type) where
  queryTime : K
  xm : Vec6 K
  cov : Matrix (Fin 6) (Fin 6) K

/-- The robust weighting policy
`aslam::backend::BlakeZissermanMEstimator(df, pCut, wCut)`. -/
structure BlakeZissermanMEstimator (K : Type) where
  df : Nat
  pCut : K
  wCut : K

/-- An odometry error term as the driver constructs it,
`ErrorTermOdometry(v_oo, om_oo, cpdv.get(), odometryParse[i], R)`
(expressions are embedded by their values), with the M-estimator policy set on
it, if any. -/
structure ErrorTermOdometry (K : Type) where
  v_oo : Vec3 K
  om_oo : Vec3 K
  params : DesignVariableId
  odometry : Vec5 K
  cov : Matrix (Fin 5) (Fin 5) K
  mEstimatorPolicy : Option (BlakeZissermanMEstimator K)

/-- The call `setMEstimatorPolicy(policy)`. -/
def ErrorTermOdometry.setMEstimatorPolicy {K : Type} (e : ErrorTermOdometry K)
    (policy : BlakeZissermanMEstimator K) : ErrorTermOdometry K :=
  { e with mEstimatorPolicy := some policy }

/-- The error terms an optimization problem can hold. -/
inductive ErrorTerm (K : Type) where
  | pose (e : ErrorTermPose K)
  | odometry (e : ErrorTermOdometry K)

/-- Whether an error term is a pose error term. -/
def ErrorTerm.isPose {K : Type} : ErrorTerm K → Bool
  | .pose _ => true
  | .odometry _ => false

/-- Whether an error term is an odometry error term. -/
def ErrorTerm.isOdometry {K : Type} : ErrorTerm K → Bool
  | .pose _ => false
  | .odometry _ => true

/-- The class `aslam::backend::OptimizationProblem`: the registered design
variables and the attached error terms, in order of registration. -/
structure OptimizationProblem (K : Type) where
  designVariables : List DesignVariable
  errorTerms : List (ErrorTerm K)

/-- A new, empty `OptimizationProblem`. -/
def OptimizationProblem.empty {K : Type} : OptimizationProblem K :=
  { designVariables := [], errorTerms := [] }

/-- The call `problem->addDesignVariable(dv)`. -/
def OptimizationProblem.addDesignVariable {K : Type} (p : OptimizationProblem K)
    (dv : DesignVariable) : OptimizationProblem K :=
  { p with designVariables := p.designVariables ++ [dv] }

/-- The call `problem->addErrorTerm(e)`. -/
def OptimizationProblem.addErrorTerm {K : Type} (p : OptimizationProblem K)
    (e : ErrorTerm K) : OptimizationProblem K :=
  { p with errorTerms := p.errorTerms ++ [e] }

/-- What the driver takes from the libraries it is linked with and from the
header of the log: the number `bspdv->numDesignVariables()` of control-point
variables, the active flag of a new design variable, the conversion
`ypr.rotationMatrixToParameters(rv->parametersToRotationMatrix(·))`, the action
of `C_io.inverse()` on a vector, the value of `t_io`,
`ErrorTermOdometry::evaluateError`, and `ErrorTermOdometry::dimension`. -/
structure Externals (K : Type) where
  numDesignVariables : Nat
  dvInitiallyActive : Bool
  odometryDimension : Nat
  rvToYpr : Vec3 K → Vec3 K
  C_io_inv : Vec3 K → Vec3 K
  t_io : Vec3 K
  evaluateError : ErrorTermOdometry K → K

/-- The state the assembly works on: the optimization problem and the lines
written to `errors.txt`. -/
structure DriverState (K : Type) where
  problem : OptimizationProblem K
  errorFile : List K

/-- The zero vector, read where an index is out of range. -/
def Vec6.zero : Vec6 K := ⟨⟨0, 0, 0⟩, ⟨0, 0, 0⟩⟩

/-- The zero vector, read where an index is out of range. -/
def Vec5.zero : Vec5 K := ⟨0, 0, 0, 0, 0⟩

/-- Lines 438-445: every control-point variable is registered with the
problem; the call `setActive(true)` is commented out. -/
def addSplineDesignVariables (ext : Externals K) (problem : OptimizationProblem K) :
    OptimizationProblem K :=
  (List.range ext.numDesignVariables).foldl
    (fun p i => p.addDesignVariable
      (DesignVariable.create ext.dvInitiallyActive (.spline i))) problem

/-- The pose error term built for measurement `i` (lines 450-456). -/
def createPoseErrorTerm (ext : Externals K) (timestamp : K) (pose : Vec6 K) :
    ErrorTermPose K :=
  let xm : Vec6 K := ⟨pose.head, ext.rvToYpr pose.tail⟩
  { queryTime := timestamp, xm := xm, cov := Q }

/-- Lines 447-458: one pose error term is created per pose measurement; the
call `problem->addErrorTerm(e_pose)` is commented out, so the problem is left
as it is.  The second component lists the error terms created. -/
def addPoseErrorTerms (ext : Externals K) (timestampsParse : List K)
    (posesParse : List (Vec6 K)) (problem : OptimizationProblem K) :
    OptimizationProblem K × List (ErrorTermPose K) :=
  (List.range posesParse.length).foldl
    (fun acc i =>
      let e_pose := createPoseErrorTerm ext (timestampsParse.getD i 0)
        (posesParse.getD i Vec6.zero)
      (acc.1, acc.2 ++ [e_pose]))
    (problem, [])

/-- Lines 484-508: the car parameter vector is set active and registered; the
extrinsic translation and rotation are registered, their `setActive(true)`
calls being commented out. -/
def addCalibrationDesignVariables (ext : Externals K) (problem : OptimizationProblem K) :
    OptimizationProblem K :=
  let cpdv := (DesignVariable.create ext.dvInitiallyActive .cpdv).setActive true
  let problem := problem.addDesignVariable cpdv
  let t_io_dv := DesignVariable.create ext.dvInitiallyActive .t_io_dv
  let C_io_dv := DesignVariable.create ext.dvInitiallyActive .C_io_dv
  let problem := problem.addDesignVariable t_io_dv
  problem.addDesignVariable C_io_dv

/-- The constant `std::numeric_limits<double>::epsilon()`, `2^-52`. -/
def epsilon : K := 1 / 2 ^ 52

/-- Translational velocity of the odometry center,
`v_oo = C_io.inverse() * (v_ii_c + om_ii_c.cross(t_io))`. -/
def v_oo (ext : Externals K) (velocity : Vec6 K) : Vec3 K :=
  ext.C_io_inv (velocity.head.add (velocity.tail.cross ext.t_io))

/-- Angular velocity of the odometry center,
`om_oo = C_io.inverse() * om_ii_c`. -/
def om_oo (ext : Externals K) (velocity : Vec6 K) : Vec3 K :=
  ext.C_io_inv velocity.tail

/-- The test of "skip when velocity is null" (lines 533-534). -/
def skipCondition (ext : Externals K) (velocity : Vec6 K) : Prop :=
  |(v_oo ext velocity).x| < epsilon ∧ |(om_oo ext velocity).z| < epsilon

instance (ext : Externals K) (velocity : Vec6 K) : Decidable (skipCondition ext velocity) := by
  unfold skipCondition
  exact inferInstance

/-- The odometry error term built for a measurement (lines 538-540). -/
def createOdometryErrorTerm (ext : Externals K) (velocity : Vec6 K) (odometry : Vec5 K) :
    ErrorTermOdometry K :=
  { v_oo := v_oo ext velocity, om_oo := om_oo ext velocity, params := .cpdv,
    odometry := odometry, cov := R, mEstimatorPolicy := none }

/-- The odometry error term as the problem holds it once the iteration is
over: the problem shares the term with the loop body, which sets
`BlakeZissermanMEstimator(e_odo->dimension(), 0.999, 0.1)` on it after adding
it (lines 544-547). -/
def attachedOdometryErrorTerm (ext : Externals K) (velocity : Vec6 K) (odometry : Vec5 K) :
    ErrorTermOdometry K :=
  (createOdometryErrorTerm ext velocity odometry).setMEstimatorPolicy
    { df := ext.odometryDimension, pCut := 999 / 1000, wCut := 1 / 10 }

/-- One iteration of the odometry loop (lines 514-548): a measurement meeting
the skip condition is passed over with `continue`; otherwise the error term is
created, added to the problem, its error written to `errors.txt`, and the
M-estimator policy set on it. -/
def odometryStep (ext : Externals K) (st : DriverState K) (velocity : Vec6 K)
    (odometry : Vec5 K) : DriverState K :=
  if skipCondition ext velocity then st
  else
    let e_odo := createOdometryErrorTerm ext velocity odometry
    { problem := st.problem.addErrorTerm
        (.odometry (attachedOdometryErrorTerm ext velocity odometry)),
      errorFile := st.errorFile ++ [ext.evaluateError e_odo] }

/-- The odometry loop `for (size_t i = 0; i < odometryParse.size(); ++i)`. -/
def addOdometryErrorTerms (ext : Externals K) (velocityParse : List (Vec6 K))
    (odometryParse : List (Vec5 K)) (st : DriverState K) : DriverState K :=
  (List.range odometryParse.length).foldl
    (fun st i => odometryStep ext st (velocityParse.getD i Vec6.zero)
      (odometryParse.getD i Vec5.zero))
    st

/-- The assembly of the optimization problem, lines 434-548, from the parsed
sequences. -/
def assembleProblem (ext : Externals K) (timestampsParse : List K)
    (posesParse velocityParse : List (Vec6 K)) (odometryParse : List (Vec5 K)) :
    DriverState K :=
  let problem : OptimizationProblem K := OptimizationProblem.empty
  let problem := addSplineDesignVariables ext problem
  let problem := (addPoseErrorTerms ext timestampsParse posesParse problem).1
  let problem := addCalibrationDesignVariables ext problem
  addOdometryErrorTerms ext velocityParse odometryParse
    { problem := problem, errorFile := [] }

/-- Number of odometry measurements meeting the skip condition. -/
def countSkipped (ext : Externals K) (velocityParse : List (Vec6 K)) : Nat :=
  velocityParse.countP (fun v => decide (skipCondition ext v))

/-- The odometry error terms the skip rule lets through: for each measurement
in order, none when the skip condition holds and its error term otherwise. -/
def expectedOdometryTerms (ext : Externals K) (velocityParse : List (Vec6 K))
    (odometryParse : List (Vec5 K)) : List (ErrorTerm K) :=
  (List.zip velocityParse odometryParse).filterMap
    (fun vo => if skipCondition ext vo.1 then none
      else some (ErrorTerm.odometry (attachedOdometryErrorTerm ext vo.1 vo.2)))

/-- The names of the parameters of the constructor
`ErrorTermWheel(v_v_mw, k, measurement, sigma2Wheel, frontEnabled)`. -/
def ErrorTermWheel.constructorParameters : List String :=
  ["v_v_mw", "k", "measurement", "sigma2Wheel", "frontEnabled"]

/-- A sample environment over the rationals: one control-point variable, new
design variables inactive, identity conversions, zero lever arm. -/
def sampleExternals : Externals ℚ :=
  { numDesignVariables := 1, dvInitiallyActive := false, odometryDimension := 5,
    rvToYpr := id, C_io_inv := id, t_io := ⟨0, 0, 0⟩, evaluateError := fun _ => 0 }

/-- The state before the odometry loop of a run without design variables. -/
def emptyState : DriverState ℚ := { problem := OptimizationProblem.empty, errorFile := [] }

end Assembly

/-! ## Calibrator options (`CalibratorOptions.cpp`) -/

section Options

variable {K : Type}

/-- The configuration store `sm::PropertyTree` as the typed lookups see it: for
each key the `double`, `int` and `bool` value a lookup of that type finds, if
any. -/
structure PropertyTree (K : Type) where
  doubles : String → Option K
  ints : String → Option Int
  bools : String → Option Bool

/-- Modelled from the spec: the typed lookup `getDouble(key)` of the
configuration store, a required key: the value stored under the key, and a
lookup error naming the key when there is none. -/
def PropertyTree.getDouble (config : PropertyTree K) (key : String) : Except String K :=
  match config.doubles key with
  | some v => .ok v
  | none => .error key

/-- Modelled from the spec: the typed lookup `getInt(key)` of the configuration
store, a required key. -/
def PropertyTree.getInt (config : PropertyTree K) (key : String) : Except String Int :=
  match config.ints key with
  | some v => .ok v
  | none => .error key

/-- Modelled from the spec: the typed lookup `getBool(key)` of the configuration
store, a required key. -/
def PropertyTree.getBool (config : PropertyTree K) (key : String) : Except String Bool :=
  match config.bools key with
  | some v => .ok v
  | none => .error key

/-- Modelled from the spec: the typed lookup `getInt(key, defaultValue)` of the
configuration store, an optional key with a default: the value stored under
the key, and `defaultValue` when there is none. -/
def PropertyTree.getIntDefault (config : PropertyTree K) (key : String)
    (defaultValue : Int) : Int :=
  match config.ints key with
  | some v => v
  | none => defaultValue

/-- The members of `CalibratorOptions`. -/
structure CalibratorOptions (K : Type) where
  windowDuration : K
  transSplineLambda : K
  rotSplineLambda : K
  splineKnotsPerSecond : Int
  transSplineOrder : Int
  rotSplineOrder : Int
  lwVariance : K
  rwVariance : K
  vyVariance : K
  vzVariance : K
  verbose : Bool
  delayBound : Int

/-- The default constructor `CalibratorOptions::CalibratorOptions()`. -/
def CalibratorOptions.default [LinearOrderedField K] : CalibratorOptions K :=
  { windowDuration := 10
    transSplineLambda := 0
    rotSplineLambda := 0
    splineKnotsPerSecond := 5
    transSplineOrder := 4
    rotSplineOrder := 4
    lwVariance := 1 / 10 ^ 3
    rwVariance := 1 / 10 ^ 3
    vyVariance := 1 / 10
    vzVariance := 1 / 10
    verbose := true
    delayBound := 50000000 }

/-- The constructor `CalibratorOptions::CalibratorOptions(const PropertyTree&)`.
It has no member initializers, so the member `transSplineOrder` that it passes
as the default of the optional lookup has not been assigned; `indeterminate`
stands for the value read there.  A failing lookup ends the construction with
its error. -/
def CalibratorOptions.fromPropertyTree (config : PropertyTree K) (indeterminate : Int) :
    Except String (CalibratorOptions K) := do
  let windowDuration ← config.getDouble "windowDuration"
  let verbose ← config.getBool "verbose"
  let delayBound ← config.getInt "delayBound"
  let transSplineLambda ← config.getDouble "splines/transSplineLambda"
  let rotSplineLambda ← config.getDouble "splines/rotSplineLambda"
  let splineKnotsPerSecond ← config.getInt "splines/splineKnotsPerSecond"
  let transSplineOrder := config.getIntDefault "splines/transSplineOrder" indeterminate
  let rotSplineOrder ← config.getInt "splines/rotSplineOrder"
  let lwVariance ← config.getDouble "odometry/sensors/wss/noise/lwVariance"
  let rwVariance ← config.getDouble "odometry/sensors/wss/noise/rwVariance"
  let vyVariance ← config.getDouble "odometry/constraints/noise/vyVariance"
  let vzVariance ← config.getDouble "odometry/constraints/noise/vzVariance"
  pure
    { windowDuration := windowDuration
      transSplineLambda := transSplineLambda
      rotSplineLambda := rotSplineLambda
      splineKnotsPerSecond := splineKnotsPerSecond
      transSplineOrder := transSplineOrder
      rotSplineOrder := rotSplineOrder
      lwVariance := lwVariance
      rwVariance := rwVariance
      vyVariance := vyVariance
      vzVariance := vzVariance
      verbose := verbose
      delayBound := delayBound }

/-- The type under which a key is looked up. -/
inductive KeyType where
  | double
  | int
  | bool
deriving DecidableEq

/-- The eleven keys looked up without a default, each with the type of its
lookup. -/
def requiredKeys : List (String × KeyType) :=
  [("windowDuration", .double), ("verbose", .bool), ("delayBound", .int),
   ("splines/transSplineLambda", .double), ("splines/rotSplineLambda", .double),
   ("splines/splineKnotsPerSecond", .int), ("splines/rotSplineOrder", .int),
   ("odometry/sensors/wss/noise/lwVariance", .double),
   ("odometry/sensors/wss/noise/rwVariance", .double),
   ("odometry/constraints/noise/vyVariance", .double),
   ("odometry/constraints/noise/vzVariance", .double)]

/-- A key is missing when the lookup of its type finds no value. -/
def PropertyTree.missing (config : PropertyTree K) (key : String × KeyType) : Prop :=
  match key.2 with
  | .double => config.doubles key.1 = none
  | .int => config.ints key.1 = none
  | .bool => config.bools key.1 = none

/-- A sample configuration over the rationals holding every key. -/
def sampleConfig : PropertyTree ℚ :=
  { doubles := fun _ => some 1, ints := fun _ => some 3, bools := fun _ => some false }

/-- A sample configuration over the rationals that holds the eleven keys
looked up without a default and omits `splines/transSplineOrder`. -/
def sampleConfigWithoutTransSplineOrder : PropertyTree ℚ :=
  { doubles := fun _ => some 1
    ints := fun key => if key = "splines/transSplineOrder" then none else some 3
    bools := fun _ => some false }

end Options

/-! ## Optimizer set-up in the batch driver (driver lines 561-572) -/

section Optimizer

/-- The members of `aslam::backend::Optimizer2Options` that the driver
assigns. -/
structure Optimizer2Options where
  verbose : Bool
  doLevenbergMarquardt : Bool
  linearSolver : String
deriving DecidableEq

/-- The member of `aslam::backend::SparseQRLinearSolverOptions` that the driver
assigns. -/
structure SparseQRLinearSolverOptions where
  colNorm : Bool
deriving DecidableEq

/-- An `aslam::backend::Optimizer2` as the driver sets it up: the options it is
constructed with, the options given to its linear solver, and the problem
set. -/
structure Optimizer2 (K : Type) where
  options : Optimizer2Options
  linearSolverOptions : SparseQRLinearSolverOptions
  problem : OptimizationProblem K

/-- Lines 561-564: the default-constructed options `defaults` with `verbose`,
`doLevenbergMarquardt` and `linearSolver` assigned. -/
def driverOptions (defaults : Optimizer2Options) : Optimizer2Options :=
  let options := defaults
  let options := { options with verbose := true }
  let options := { options with doLevenbergMarquardt := false }
  { options with linearSolver := "sparse_qr" }

/-- Lines 565-567: the default-constructed linear solver options with `colNorm`
assigned; the assignment of `qrTol` is commented out. -/
def driverLinearSolverOptions (defaults : SparseQRLinearSolverOptions) :
    SparseQRLinearSolverOptions :=
  { defaults with colNorm := true }

/-- Lines 568-571: the optimizer is constructed with the options, its solver
is given the linear solver options, and the assembled problem is set; this is
the optimizer on which `optimize()` is called. -/
def setupOptimizer {K : Type} (defaults : Optimizer2Options)
    (solverDefaults : SparseQRLinearSolverOptions) (problem : OptimizationProblem K) :
    Optimizer2 K :=
  { options := driverOptions defaults
    linearSolverOptions := driverLinearSolverOptions solverDefaults
    problem := problem }

end Optimizer

/-! ## Log parsing in the batch driver (driver lines 95-387) -/

section Parsing

variable {S K : Type} [LinearOrderedField K]

/-- The input stream `logFile` of type `std::ifstream`, taken at its
interface: on a stream state, the test `logFile.eof()`, the call
`logFile.getline(line, 256)` and the extraction `logFile >> x` of a
`double`. -/
structure LogStream (S K : Type) where
  eof : S → Bool
  getline : S → String × S
  readDouble : S → K × S

/-- What the parsing takes from the libraries: square root and `M_PI`,
`sm::kinematics::deg2rad` and `angleMod`, the conversion
`rv->rotationMatrixToParameters(zxy.parametersToRotationMatrix(·))`, the sample
`NormalDistribution<5>(odometry, R).getSample()` drawn in the iteration of a
given number, `std::string::find`, and the extraction of a `double` from
`std::stringstream ss(lineStr.substr(offset))`. -/
structure ParseExternals (K : Type) where
  sqrt : K → K
  pi : K
  deg2rad : K → K
  angleMod : K → K
  zxyToRotationVector : Vec3 K → Vec3 K
  getSample : Nat → Vec5 K → Vec5 K
  find : String → String → Option Nat
  extractDouble : String → Nat → K

/-- The car parameters read from the header (driver lines 63-70). -/
structure CarParameters (K : Type) where
  L_RF : K
  e_F : K
  e_R : K
  r_FL : K
  r_FR : K
  r_RL : K
  r_RR : K

/-- The transformation between IMU and odometry read from the header (driver
lines 72-74). -/
structure ImuOdometryTransformation (K : Type) where
  t_x : K
  t_y : K
  t_z : K
  r_x : K
  r_y : K
  r_z : K

/-- Lines 123-195: the car parameters are searched in the fourth header line;
a key that is not found ends the program with "Parsing error!". -/
def parseCarParameters (px : ParseExternals K) (lineStr : String) :
    Option (CarParameters K) := do
  let pos ← px.find lineStr "L = "
  let L_RF := px.extractDouble lineStr (pos + 3)
  let pos ← px.find lineStr "e_F = "
  let e_F := px.extractDouble lineStr (pos + 5) / 2
  let pos ← px.find lineStr "e_R = "
  let e_R := px.extractDouble lineStr (pos + 5) / 2
  let pos ← px.find lineStr "r_FL = "
  let r_FL := px.extractDouble lineStr (pos + 6)
  let pos ← px.find lineStr "r_FR = "
  let r_FR := px.extractDouble lineStr (pos + 6)
  let pos ← px.find lineStr "r_RL = "
  let r_RL := px.extractDouble lineStr (pos + 6)
  let pos ← px.find lineStr "r_RR = "
  let r_RR := px.extractDouble lineStr (pos + 6)
  pure { L_RF := L_RF, e_F := e_F, e_R := e_R, r_FL := r_FL, r_FR := r_FR,
         r_RL := r_RL, r_RR := r_RR }

/-- Lines 204-267: the transformation is searched in the fifth header line; a
key that is not found ends the program with "Parsing error!". -/
def parseTransformation (px : ParseExternals K) (lineStr : String) :
    Option (ImuOdometryTransformation K) := do
  let pos ← px.find lineStr "t_x = "
  let t_x := px.extractDouble lineStr (pos + 5)
  let pos ← px.find lineStr "t_y = "
  let t_y := px.extractDouble lineStr (pos + 5)
  let pos ← px.find lineStr "t_z = "
  let t_z := px.extractDouble lineStr (pos + 5)
  let pos ← px.find lineStr "r_x = "
  let r_x := px.angleMod (px.deg2rad (px.extractDouble lineStr (pos + 5)))
  let pos ← px.find lineStr "r_y = "
  let r_y := px.angleMod (px.deg2rad (px.extractDouble lineStr (pos + 5)))
  let pos ← px.find lineStr "r_z = "
  let r_z := px.angleMod (px.deg2rad (px.extractDouble lineStr (pos + 5)))
  pure { t_x := t_x, t_y := t_y, t_z := t_z, r_x := r_x, r_y := r_y, r_z := r_z }

/-- Lines 95-280, the header: six tests of `logFile.eof()`, each ending the
program with "Parsing error!" (`none`) when end-of-file is set, with a
`getline` after each of the first five and the parsing of the car parameters
and of the transformation in the fourth and fifth.  The result holds the
parameters read and the stream as the data loop finds it. -/
def parseHeader (ls : LogStream S K) (px : ParseExternals K) (s0 : S) :
    Option (CarParameters K × ImuOdometryTransformation K × S) :=
  if ls.eof s0 then none else
  let s1 := (ls.getline s0).2
  if ls.eof s1 then none else
  let s2 := (ls.getline s1).2
  if ls.eof s2 then none else
  let line3 := (ls.getline s2).1
  let s3 := (ls.getline s2).2
  if ls.eof s3 then none else
  match parseCarParameters px line3 with
  | none => none
  | some car =>
    let line4 := (ls.getline s3).1
    let s4 := (ls.getline s3).2
    if ls.eof s4 then none else
    match parseTransformation px line4 with
    | none => none
    | some imuOdo =>
      let s5 := (ls.getline s4).2
      if ls.eof s5 then none else
      some (car, imuOdo, s5)

/-- The variables of the data loop: the stream and the four sequences. -/
structure ParseState (S K : Type) where
  logFile : S
  timestampsParse : List K
  posesParse : List (Vec6 K)
  odometryParse : List (Vec5 K)
  velocityParse : List (Vec6 K)

/-- The state in which the data loop is entered: the four sequences empty. -/
def ParseState.initial (s : S) : ParseState S K :=
  { logFile := s, timestampsParse := [], posesParse := [], odometryParse := [],
    velocityParse := [] }

/-- Six extractions in a row, `logFile >> v(0) >> ... >> v(5)`. -/
def readVec6 (ls : LogStream S K) (s : S) : Vec6 K × S :=
  let r0 := ls.readDouble s
  let r1 := ls.readDouble r0.2
  let r2 := ls.readDouble r1.2
  let r3 := ls.readDouble r2.2
  let r4 := ls.readDouble r3.2
  let r5 := ls.readDouble r4.2
  (⟨⟨r0.1, r1.1, r2.1⟩, ⟨r3.1, r4.1, r5.1⟩⟩, r5.2)

/-- Five extractions in a row, `logFile >> v(0) >> ... >> v(4)`. -/
def readVec5 (ls : LogStream S K) (s : S) : Vec5 K × S :=
  let r0 := ls.readDouble s
  let r1 := ls.readDouble r0.2
  let r2 := ls.readDouble r1.2
  let r3 := ls.readDouble r2.2
  let r4 := ls.readDouble r3.2
  (⟨r0.1, r1.1, r2.1, r3.1, r4.1⟩, r4.2)

/-- Lines 323-348 with their guard: the pose that is stored.  Without a
previous pose (`posesParse.empty()`) the pose is left as it is; otherwise its
rotation vector is replaced by the result of the search against the rotation
vector of the last stored pose. -/
def storedPose (sqrt : K → K) (pi : K) (posesParse : List (Vec6 K)) (pose : Vec6 K) :
    Vec6 K :=
  if !posesParse.isEmpty then
    let pr := (posesParse.getD (posesParse.length - 1) Vec6.zero).tail
    let r := pose.tail
    ⟨pose.head, ensureNoFlip sqrt pi pr r⟩
  else pose

/-- One iteration of the data loop (lines 295-381): timestamp, pose, velocity
and odometry are extracted, converted and appended to their sequences. -/
def dataLoopBody (ls : LogStream S K) (px : ParseExternals K) (st : ParseState S K) :
    ParseState S K :=
  let rt := ls.readDouble st.logFile
  let timestampsParse := st.timestampsParse ++ [rt.1]
  let rp := readVec6 ls rt.2
  let p3 := px.angleMod (px.deg2rad rp.1.tail.x)
  let p4 := px.angleMod (px.deg2rad rp.1.tail.y)
  let p5 := px.angleMod (px.deg2rad rp.1.tail.z)
  let reversed : Vec3 K := ⟨p5, p4, p3⟩
  let swapped : Vec3 K := ⟨reversed.x, reversed.z, reversed.y⟩
  let pose : Vec6 K := ⟨rp.1.head, px.zxyToRotationVector swapped⟩
  let posesParse := st.posesParse ++ [storedPose px.sqrt px.pi st.posesParse pose]
  let rv := readVec6 ls rp.2
  let velocity : Vec6 K :=
    ⟨rv.1.head, ⟨px.deg2rad rv.1.tail.x, px.deg2rad rv.1.tail.y, px.deg2rad rv.1.tail.z⟩⟩
  let velocityParse := st.velocityParse ++ [velocity]
  let ro := readVec5 ls rv.2
  let odometry : Vec5 K :=
    ⟨px.deg2rad ro.1.c4, px.deg2rad ro.1.c2, px.deg2rad ro.1.c3, px.deg2rad ro.1.c0,
      px.deg2rad ro.1.c1⟩
  let odometry := px.getSample st.odometryParse.length odometry
  let odometryParse := st.odometryParse ++ [odometry]
  { logFile := ro.2, timestampsParse := timestampsParse, posesParse := posesParse,
    odometryParse := odometryParse, velocityParse := velocityParse }

/-- The loop `while (!logFile.eof())` (line 294), run with a bound on the number
of tests of its condition: the state in which it ends and the number of
iterations it has run, or `none` when the bound is used up. -/
def dataLoop (ls : LogStream S K) (px : ParseExternals K) :
    Nat → ParseState S K → Option (ParseState S K × Nat)
  | 0, _ => none
  | fuel + 1, st =>
    if ls.eof st.logFile then some (st, 0)
    else (dataLoop ls px fuel (dataLoopBody ls px st)).map (fun r => (r.1, r.2 + 1))

/-- The call `pop_back()`, which has no defined result on an empty vector. -/
def popBack {α : Type} (v : List α) : Option (List α) :=
  if v.isEmpty then none else some v.dropLast

/-- Lines 383-387: the last element of each of the four sequences is
removed. -/
def kickOutLast (st : ParseState S K) : Option (ParseState S K) := do
  let timestampsParse ← popBack st.timestampsParse
  let posesParse ← popBack st.posesParse
  let odometryParse ← popBack st.odometryParse
  let velocityParse ← popBack st.velocityParse
  pure { logFile := st.logFile, timestampsParse := timestampsParse,
         posesParse := posesParse, odometryParse := odometryParse,
         velocityParse := velocityParse }

/-- A sample stream over the rationals: the state is the number of items left;
every `getline` and every extraction takes one item; end-of-file is set once
no item is left. -/
def sampleStream : LogStream Nat ℚ :=
  { eof := fun s => decide (s = 0)
    getline := fun s => ("", s - 1)
    readDouble := fun s => (0, s - 1) }

/-- A sample parsing environment over the rationals: every key is found at
position 0, every number extracted is 0, conversions are the identity. -/
def sampleParseExternals : ParseExternals ℚ :=
  { sqrt := id, pi := 3, deg2rad := id, angleMod := id, zxyToRotationVector := id,
    getSample := fun _ v => v, find := fun _ _ => some 0, extractDouble := fun _ _ => 0 }

end Parsing

/-! # Theorems -/

/-! ## Lemmas on the search loop -/

section FlipLemmas

variable {K : Type} [LinearOrderedField K]

theorem flip_foldl_inv (sqrt : K → K) (pi : K) (pr axis : Vec3 K) (angle : K)
    (l : List Int) (b : Vec3 K × K) (hb : b.2 = (b.1.sub pr).norm sqrt) :
    let out := l.foldl (flipStep sqrt pi pr axis angle) b
    out.2 = (out.1.sub pr).norm sqrt ∧ out.2 ≤ b.2 ∧
      (∀ s ∈ l, out.2 ≤ ((flipCandidate pi axis angle s).sub pr).norm sqrt) ∧
      (out.1 = b.1 ∨ ∃ s ∈ l, out.1 = flipCandidate pi axis angle s) := by
  induction l generalizing b with
  | nil => simp [hb]
  | cons s l ih =>
    simp only [List.foldl_cons]
    have hstep : (flipStep sqrt pi pr axis angle b s).2
        = ((flipStep sqrt pi pr axis angle b s).1.sub pr).norm sqrt := by
      unfold flipStep
      simp only
      split_ifs <;> simp [hb]
    have hle : (flipStep sqrt pi pr axis angle b s).2 ≤ b.2 := by
      unfold flipStep
      simp only
      split_ifs with h
      · exact le_of_lt h
      · exact le_refl _
    have hcand : (flipStep sqrt pi pr axis angle b s).2
        ≤ ((flipCandidate pi axis angle s).sub pr).norm sqrt := by
      unfold flipStep
      simp only
      split_ifs with h
      · exact le_refl _
      · exact not_lt.mp h
    have hmem : (flipStep sqrt pi pr axis angle b s).1 = b.1 ∨
        (flipStep sqrt pi pr axis angle b s).1 = flipCandidate pi axis angle s := by
      unfold flipStep
      simp only
      split_ifs <;> simp
    obtain ⟨h1, h2, h3, h4⟩ := ih (flipStep sqrt pi pr axis angle b s) hstep
    refine ⟨h1, le_trans h2 hle, ?_, ?_⟩
    · intro t ht
      rcases List.mem_cons.mp ht with rfl | ht
      · exact le_trans h2 hcand
      · exact h3 t ht
    · rcases h4 with h4 | ⟨t, ht, h4⟩
      · rcases hmem with hm | hm
        · exact Or.inl (h4.trans hm)
        · exact Or.inr ⟨s, List.mem_cons_self _ _, h4.trans hm⟩
      · exact Or.inr ⟨t, List.mem_cons_of_mem _ ht, h4⟩

/-- The stored vector is at least as close to `pr` as every searched
candidate. -/
theorem ensureNoFlip_le_candidate (sqrt : K → K) (pi : K) (pr r : Vec3 K)
    (s : Int) (hs : s ∈ flipRange) :
    ((ensureNoFlip sqrt pi pr r).sub pr).norm sqrt
      ≤ ((flipCandidate pi (r.divScalar (r.norm sqrt)) (r.norm sqrt) s).sub pr).norm sqrt := by
  have h := flip_foldl_inv sqrt pi pr (r.divScalar (r.norm sqrt)) (r.norm sqrt)
    flipRange (r, (r.sub pr).norm sqrt) rfl
  obtain ⟨h1, _, h3, _⟩ := h
  unfold ensureNoFlip
  simp only
  rw [← h1]
  exact h3 s hs

/-- The stored vector is the current vector or one of the searched
candidates. -/
theorem ensureNoFlip_mem (sqrt : K → K) (pi : K) (pr r : Vec3 K) :
    ensureNoFlip sqrt pi pr r = r ∨ ∃ s ∈ flipRange,
      ensureNoFlip sqrt pi pr r
        = flipCandidate pi (r.divScalar (r.norm sqrt)) (r.norm sqrt) s := by
  have h := flip_foldl_inv sqrt pi pr (r.divScalar (r.norm sqrt)) (r.norm sqrt)
    flipRange (r, (r.sub pr).norm sqrt) rfl
  obtain ⟨_, _, _, h4⟩ := h
  exact h4

theorem mem_flipRange (s : Int) : s ∈ flipRange ↔ -3 ≤ s ∧ s ≤ 4 := by
  unfold flipRange
  constructor
  · intro h
    simp only [List.mem_cons, List.mem_singleton, List.not_mem_nil, or_false] at h
    omega
  · rintro ⟨h1, h2⟩
    simp only [List.mem_cons, List.mem_singleton, List.not_mem_nil, or_false]
    omega

end FlipLemmas

/-! ## The search loop over the real numbers -/

section FlipReal

theorem flipCandidate_eq_congruentRep {K : Type} [LinearOrderedField K]
    (sqrt : K → K) (pi : K) (r : Vec3 K) (k : Int) :
    flipCandidate pi (r.divScalar (r.norm sqrt)) (r.norm sqrt) k
      = congruentRep sqrt pi r k := by
  unfold flipCandidate congruentRep
  congr 1
  ring

theorem norm_scale_sub (a : Vec3 ℝ) (ha : a.squaredNorm = 1) (c d : ℝ) :
    ((a.scale c).sub (a.scale d)).norm Real.sqrt = |c - d| := by
  have h : ((a.scale c).sub (a.scale d)).squaredNorm = (c - d) * (c - d) := by
    have e : ((a.scale c).sub (a.scale d)).squaredNorm
        = (c - d) * (c - d) * a.squaredNorm := by
      simp only [Vec3.squaredNorm, Vec3.sub, Vec3.scale]
      ring
    rw [e, ha, mul_one]
  unfold Vec3.norm
  rw [h, Real.sqrt_mul_self_eq_abs]

theorem norm_scale (a : Vec3 ℝ) (ha : a.squaredNorm = 1) (c : ℝ) :
    (a.scale c).norm Real.sqrt = |c| := by
  have h : (a.scale c).squaredNorm = c * c := by
    have e : (a.scale c).squaredNorm = c * c * a.squaredNorm := by
      simp only [Vec3.squaredNorm, Vec3.scale]
      ring
    rw [e, ha, mul_one]
  unfold Vec3.norm
  rw [h, Real.sqrt_mul_self_eq_abs]

theorem unitX_squaredNorm : (unitX ℝ).squaredNorm = 1 := by
  simp [unitX, Vec3.squaredNorm]

theorem unitX_scale (c : ℝ) : (unitX ℝ).scale c = ⟨c, 0, 0⟩ := by
  simp [unitX, Vec3.scale]

/-- For a current vector `a * u` along a unit axis `a`, the candidate of the
search loop with shift `s` is `a * (u + 2 * pi * s)` when `u` is positive. -/
theorem flipCandidate_of_pos (a : Vec3 ℝ) (ha : a.squaredNorm = 1) (u : ℝ)
    (hu : 0 < u) (s : ℤ) :
    flipCandidate Real.pi ((a.scale u).divScalar ((a.scale u).norm Real.sqrt))
        ((a.scale u).norm Real.sqrt) s
      = a.scale (u + 2 * Real.pi * (s : ℝ)) := by
  rw [norm_scale a ha, abs_of_pos hu]
  have hu0 : u ≠ 0 := ne_of_gt hu
  have hc : ∀ c : ℝ, c * u / u * (u + Real.pi * 2 * (s : ℝ))
      = c * (u + 2 * Real.pi * (s : ℝ)) := by
    intro c
    rw [mul_div_assoc, div_self hu0]
    ring
  simp only [flipCandidate, Vec3.scale, Vec3.divScalar, Vec3.mk.injEq]
  exact ⟨hc _, hc _, hc _⟩

/-- For a current vector `a * u` along a unit axis `a`, the candidate of the
search loop with shift `s` is `a * (u - 2 * pi * s)` when `u` is negative. -/
theorem flipCandidate_of_neg (a : Vec3 ℝ) (ha : a.squaredNorm = 1) (u : ℝ)
    (hu : u < 0) (s : ℤ) :
    flipCandidate Real.pi ((a.scale u).divScalar ((a.scale u).norm Real.sqrt))
        ((a.scale u).norm Real.sqrt) s
      = a.scale (u - 2 * Real.pi * (s : ℝ)) := by
  rw [norm_scale a ha, abs_of_neg hu]
  have hu0 : u ≠ 0 := ne_of_lt hu
  have hc : ∀ c : ℝ, c * u / -u * (-u + Real.pi * 2 * (s : ℝ))
      = c * (u - 2 * Real.pi * (s : ℝ)) := by
    intro c
    rw [mul_div_assoc, div_neg, div_self hu0]
    ring
  simp only [flipCandidate, Vec3.scale, Vec3.divScalar, Vec3.mk.injEq]
  exact ⟨hc _, hc _, hc _⟩

/-- The stored vector is at least as close to the previous rotation vector
`pr` as every congruent representation `a * (‖r‖ + 2 * pi * k)` of the current
vector whose shift `k` lies in the searched range `-3 ≤ k ≤ 4`. -/
theorem ensureNoFlip_optimal_in_searched_range (pr r : Vec3 ℝ)
    (hr : r ≠ ⟨0, 0, 0⟩) (k : ℤ) (hk3 : -3 ≤ k) (hk4 : k ≤ 4) :
    ((ensureNoFlip Real.sqrt Real.pi pr r).sub pr).norm Real.sqrt
      ≤ ((congruentRep Real.sqrt Real.pi r k).sub pr).norm Real.sqrt := by
  have _ := hr
  rw [← flipCandidate_eq_congruentRep]
  exact ensureNoFlip_le_candidate Real.sqrt Real.pi pr r k
    ((mem_flipRange k).mpr ⟨hk3, hk4⟩)

/-- An instance of the previous lemma: previous vector zero, current vector
the unit vector along the first axis, shift `k = 1`. -/
theorem ensureNoFlip_optimal_in_searched_range_witness :
    ((ensureNoFlip Real.sqrt Real.pi ⟨0, 0, 0⟩ ⟨1, 0, 0⟩).sub ⟨0, 0, 0⟩).norm Real.sqrt
      ≤ ((congruentRep Real.sqrt Real.pi ⟨1, 0, 0⟩ 1).sub ⟨0, 0, 0⟩).norm Real.sqrt :=
  ensureNoFlip_optimal_in_searched_range ⟨0, 0, 0⟩ ⟨1, 0, 0⟩
    (by intro h; have h1 := congrArg Vec3.x h; simp at h1) 1 (by decide) (by decide)

/-- C1 (the code at the failing input): about the first coordinate axis, with
the previous vector stored at the angle `6.3 * pi` and the current principal
rotation vector at `-0.8 * pi` (the rotation by `7.2 * pi`), the stored vector
is farther from the previous one than the congruent representation with
`k = -4`, which lies outside the searched range `-3..4`: the stored vector is
not the closest of all congruent representations.  This state is reached by
samples that turn on by `0.9 * pi` each, once the sequence has turned by more
than three and a half turns. -/
theorem ensureNoFlip_not_optimal_over_all_shifts :
    ¬ (((ensureNoFlip Real.sqrt Real.pi ((unitX ℝ).scale (63 * Real.pi / 10))
            ((unitX ℝ).scale (-(4 * Real.pi / 5)))).sub
          ((unitX ℝ).scale (63 * Real.pi / 10))).norm Real.sqrt
        ≤ ((congruentRep Real.sqrt Real.pi ((unitX ℝ).scale (-(4 * Real.pi / 5))) (-4)).sub
          ((unitX ℝ).scale (63 * Real.pi / 10))).norm Real.sqrt) := by
  have hp := Real.pi_pos
  have hux := unitX_squaredNorm
  have hneg : -(4 * Real.pi / 5) < 0 := by linarith
  have hrhs : ((congruentRep Real.sqrt Real.pi ((unitX ℝ).scale (-(4 * Real.pi / 5)))
      (-4)).sub ((unitX ℝ).scale (63 * Real.pi / 10))).norm Real.sqrt
      = 9 * Real.pi / 10 := by
    rw [← flipCandidate_eq_congruentRep, flipCandidate_of_neg _ hux _ hneg,
      norm_scale_sub _ hux]
    push_cast
    rw [abs_of_pos (by linarith)]
    ring
  have hlhs : 11 * Real.pi / 10
      ≤ ((ensureNoFlip Real.sqrt Real.pi ((unitX ℝ).scale (63 * Real.pi / 10))
            ((unitX ℝ).scale (-(4 * Real.pi / 5)))).sub
          ((unitX ℝ).scale (63 * Real.pi / 10))).norm Real.sqrt := by
    rcases ensureNoFlip_mem Real.sqrt Real.pi ((unitX ℝ).scale (63 * Real.pi / 10))
      ((unitX ℝ).scale (-(4 * Real.pi / 5))) with h | ⟨s, hs, h⟩
    · rw [h, norm_scale_sub _ hux, abs_of_neg (by linarith)]
      linarith
    · rw [h, flipCandidate_of_neg _ hux _ hneg, norm_scale_sub _ hux]
      obtain ⟨hs3, _⟩ := (mem_flipRange s).mp hs
      have hs3r : (-3 : ℝ) ≤ (s : ℝ) := by exact_mod_cast hs3
      have hmul : Real.pi * (-3) ≤ Real.pi * (s : ℝ) :=
        mul_le_mul_of_nonneg_left hs3r (le_of_lt hp)
      rw [le_abs]
      right
      linarith
  intro hle
  rw [hrhs] at hle
  linarith

theorem divScalar_norm_squaredNorm (r : Vec3 ℝ) (hr : 0 < r.norm Real.sqrt) :
    (r.divScalar (r.norm Real.sqrt)).squaredNorm = 1 := by
  have hn0 : r.norm Real.sqrt ≠ 0 := ne_of_gt hr
  have hsq : r.norm Real.sqrt * r.norm Real.sqrt = r.squaredNorm := by
    unfold Vec3.norm
    exact Real.mul_self_sqrt (Real.sqrt_pos.mp hr).le
  have e : (r.divScalar (r.norm Real.sqrt)).squaredNorm
      = r.squaredNorm / (r.norm Real.sqrt * r.norm Real.sqrt) := by
    simp only [Vec3.squaredNorm, Vec3.divScalar]
    field_simp
  rw [e, hsq]
  exact div_self (ne_of_gt (Real.sqrt_pos.mp hr))

theorem squaredNorm_scale_sub (a pr : Vec3 ℝ) (ha : a.squaredNorm = 1) (t : ℝ) :
    ((a.scale t).sub pr).squaredNorm
      = (t - (a.x * pr.x + a.y * pr.y + a.z * pr.z)) ^ 2
        + (pr.squaredNorm - (a.x * pr.x + a.y * pr.y + a.z * pr.z) ^ 2) := by
  have ha1 : a.x * a.x + a.y * a.y + a.z * a.z = 1 := ha
  have e : ((a.scale t).sub pr).squaredNorm
      = t ^ 2 * (a.x * a.x + a.y * a.y + a.z * a.z)
        - 2 * t * (a.x * pr.x + a.y * pr.y + a.z * pr.z) + pr.squaredNorm := by
    simp only [Vec3.squaredNorm, Vec3.sub, Vec3.scale]
    ring
  rw [e, ha1]
  ring

theorem dot_sq_le_squaredNorm (a pr : Vec3 ℝ) (ha : a.squaredNorm = 1) :
    (a.x * pr.x + a.y * pr.y + a.z * pr.z) ^ 2 ≤ pr.squaredNorm := by
  have ha1 : a.x * a.x + a.y * a.y + a.z * a.z = 1 := ha
  have e : (a.x * a.x + a.y * a.y + a.z * a.z) * pr.squaredNorm
      - (a.x * pr.x + a.y * pr.y + a.z * pr.z) ^ 2
      = (a.x * pr.y - a.y * pr.x) ^ 2 + (a.x * pr.z - a.z * pr.x) ^ 2
        + (a.y * pr.z - a.z * pr.y) ^ 2 := by
    simp only [Vec3.squaredNorm]
    ring
  rw [ha1, one_mul] at e
  have h1 := sq_nonneg (a.x * pr.y - a.y * pr.x)
  have h2 := sq_nonneg (a.x * pr.z - a.z * pr.x)
  have h3 := sq_nonneg (a.y * pr.z - a.z * pr.y)
  linarith

theorem norm_scale_sub_le_of_abs_le (a pr : Vec3 ℝ) (ha : a.squaredNorm = 1) (t u : ℝ)
    (h : |t - (a.x * pr.x + a.y * pr.y + a.z * pr.z)|
      ≤ |u - (a.x * pr.x + a.y * pr.y + a.z * pr.z)|) :
    ((a.scale t).sub pr).norm Real.sqrt ≤ ((a.scale u).sub pr).norm Real.sqrt := by
  unfold Vec3.norm
  apply Real.sqrt_le_sqrt
  rw [squaredNorm_scale_sub a pr ha t, squaredNorm_scale_sub a pr ha u]
  have hsq := sq_le_sq.mpr h
  linarith

/-- Where the search meets its purpose: while the previous vector is within
three turns, `‖pr‖ ≤ 6 * pi`, and the current vector is a principal rotation
vector, `0 < ‖r‖ ≤ pi`, the stored vector is at least as close to `pr` as
every congruent representation `a * (‖r‖ + 2 * pi * k)`, for every integer
`k`. -/
theorem ensureNoFlip_optimal_within_three_turns (pr r : Vec3 ℝ)
    (hr0 : 0 < r.norm Real.sqrt) (hrpi : r.norm Real.sqrt ≤ Real.pi)
    (hpr : pr.norm Real.sqrt ≤ 6 * Real.pi) (k : ℤ) :
    ((ensureNoFlip Real.sqrt Real.pi pr r).sub pr).norm Real.sqrt
      ≤ ((congruentRep Real.sqrt Real.pi r k).sub pr).norm Real.sqrt := by
  have hp := Real.pi_pos
  have ha := divScalar_norm_squaredNorm r hr0
  have hc2 := dot_sq_le_squaredNorm (r.divScalar (r.norm Real.sqrt)) pr ha
  have hP : pr.squaredNorm ≤ (6 * Real.pi) ^ 2 := by
    unfold Vec3.norm at hpr
    exact (Real.sqrt_le_iff.mp hpr).2
  have hcabs : |(r.divScalar (r.norm Real.sqrt)).x * pr.x
      + (r.divScalar (r.norm Real.sqrt)).y * pr.y
      + (r.divScalar (r.norm Real.sqrt)).z * pr.z| ≤ 6 * Real.pi := by
    exact abs_le.mpr (abs_le_of_sq_le_sq' (le_trans hc2 hP) (by positivity))
  obtain ⟨hcl, hcu⟩ := abs_le.mp hcabs
  have hsearch : ∀ s : ℤ, -3 ≤ s → s ≤ 4 →
      ((ensureNoFlip Real.sqrt Real.pi pr r).sub pr).norm Real.sqrt
        ≤ ((congruentRep Real.sqrt Real.pi r s).sub pr).norm Real.sqrt := by
    intro s h3 h4
    rw [← flipCandidate_eq_congruentRep]
    exact ensureNoFlip_le_candidate Real.sqrt Real.pi pr r s
      ((mem_flipRange s).mpr ⟨h3, h4⟩)
  by_cases hlow : k < -3
  · refine le_trans (hsearch (-3) (by decide) (by decide)) ?_
    unfold congruentRep
    apply norm_scale_sub_le_of_abs_le _ pr ha
    have hk : (k : ℝ) ≤ -4 := by exact_mod_cast (by omega : k ≤ -4)
    have hmul : Real.pi * (k : ℝ) ≤ Real.pi * (-4) :=
      mul_le_mul_of_nonneg_left hk (le_of_lt hp)
    push_cast
    rw [abs_le]
    rw [abs_of_nonpos (by linarith)]
    constructor <;> linarith
  · by_cases hhigh : 4 < k
    · refine le_trans (hsearch 4 (by decide) (by decide)) ?_
      unfold congruentRep
      apply norm_scale_sub_le_of_abs_le _ pr ha
      have hk : (5 : ℝ) ≤ (k : ℝ) := by exact_mod_cast (by omega : (5 : ℤ) ≤ k)
      have hmul : Real.pi * 5 ≤ Real.pi * (k : ℝ) :=
        mul_le_mul_of_nonneg_left hk (le_of_lt hp)
      push_cast
      rw [abs_of_nonneg (by linarith), abs_of_nonneg (by linarith)]
      linarith
    · exact hsearch k (by omega) (by omega)

/-- C2: for a unit axis `a`, a previous sample `a * t1` with `|t1| ≤ pi` and a
current sample `r = a * u` that is the principal rotation vector (norm in
`(0, pi]`, angle `u` congruent to `t2` modulo a full turn) of the rotation by
`t2` about `a`, with `|t2 - t1| < pi`, the stored vector is less than `pi`
away from the previous sample. -/
theorem ensureNoFlip_boundary_crossing (a : Vec3 ℝ) (ha : a.norm Real.sqrt = 1)
    (t1 t2 u : ℝ) (m : ℤ) (r : Vec3 ℝ) (hr : r = a.scale u)
    (hcong : u = t2 + 2 * Real.pi * (m : ℝ))
    (hpos : 0 < r.norm Real.sqrt) (hle : r.norm Real.sqrt ≤ Real.pi)
    (ht1 : |t1| ≤ Real.pi) (hclose : |t2 - t1| < Real.pi) :
    ((ensureNoFlip Real.sqrt Real.pi (a.scale t1) r).sub (a.scale t1)).norm Real.sqrt
      < Real.pi := by
  have ha2 : a.squaredNorm = 1 := by
    unfold Vec3.norm at ha
    exact (Real.sqrt_eq_one).mp ha
  subst hr
  rw [norm_scale a ha2] at hpos hle
  have hp := Real.pi_pos
  obtain ⟨ht1a, ht1b⟩ := abs_le.mp ht1
  obtain ⟨hca, hcb⟩ := abs_lt.mp hclose
  obtain ⟨hua, hub⟩ := abs_le.mp hle
  have hm1 : -1 ≤ m := by
    by_contra hcon
    have h2 : m ≤ -2 := by omega
    have h2r : (m : ℝ) ≤ -2 := by exact_mod_cast h2
    have hmul : Real.pi * (m : ℝ) ≤ Real.pi * (-2) :=
      mul_le_mul_of_nonneg_left h2r (le_of_lt hp)
    linarith
  have hm2 : m ≤ 1 := by
    by_contra hcon
    have h2 : 2 ≤ m := by omega
    have h2r : (2 : ℝ) ≤ (m : ℝ) := by exact_mod_cast h2
    have hmul : Real.pi * 2 ≤ Real.pi * (m : ℝ) :=
      mul_le_mul_of_nonneg_left h2r (le_of_lt hp)
    linarith
  have hu0 : u ≠ 0 := abs_pos.mp hpos
  rcases lt_or_gt_of_ne hu0 with hneg | hposu
  · have hs : m ∈ flipRange := (mem_flipRange m).mpr ⟨by omega, by omega⟩
    have hb := ensureNoFlip_le_candidate Real.sqrt Real.pi (a.scale t1) (a.scale u) m hs
    rw [flipCandidate_of_neg a ha2 u hneg, norm_scale_sub a ha2] at hb
    have he : u - 2 * Real.pi * (m : ℝ) - t1 = t2 - t1 := by rw [hcong]; ring
    rw [he] at hb
    exact lt_of_le_of_lt hb hclose
  · have hs : -m ∈ flipRange := (mem_flipRange (-m)).mpr ⟨by omega, by omega⟩
    have hb := ensureNoFlip_le_candidate Real.sqrt Real.pi (a.scale t1) (a.scale u)
      (-m) hs
    rw [flipCandidate_of_pos a ha2 u hposu, norm_scale_sub a ha2] at hb
    have he : u + 2 * Real.pi * ((-m : ℤ) : ℝ) - t1 = t2 - t1 := by
      rw [hcong]; push_cast; ring
    rw [he] at hb
    exact lt_of_le_of_lt hb hclose

/-- C2 witness: axis along the first coordinate, previous sample at 179
degrees, current sample the rotation by 181 degrees, whose principal rotation
vector is `-a * 179 degrees`; the stored vector is `a * 181 degrees`. -/
theorem ensureNoFlip_boundary_crossing_witness :
    ((ensureNoFlip Real.sqrt Real.pi ((unitX ℝ).scale (179 * Real.pi / 180))
        ((unitX ℝ).scale (-(179 * Real.pi / 180)))).sub
        ((unitX ℝ).scale (179 * Real.pi / 180))).norm Real.sqrt < Real.pi
    ∧ ensureNoFlip Real.sqrt Real.pi ((unitX ℝ).scale (179 * Real.pi / 180))
        ((unitX ℝ).scale (-(179 * Real.pi / 180)))
      = (unitX ℝ).scale (181 * Real.pi / 180) := by
  have hp := Real.pi_pos
  have hux := unitX_squaredNorm
  constructor
  · refine ensureNoFlip_boundary_crossing (unitX ℝ) ?_ (179 * Real.pi / 180)
      (181 * Real.pi / 180) (-(179 * Real.pi / 180)) (-1) _ rfl ?_ ?_ ?_ ?_ ?_
    · unfold Vec3.norm
      rw [hux]
      exact Real.sqrt_one
    · push_cast
      ring
    · rw [norm_scale _ hux, abs_neg, abs_of_pos (by positivity)]
      positivity
    · rw [norm_scale _ hux, abs_neg, abs_of_pos (by positivity)]
      linarith
    · rw [abs_of_pos (by positivity)]
      linarith
    · rw [abs_lt]
      constructor <;> linarith
  · have hneg : -(179 * Real.pi / 180) < 0 := by linarith
    have hb := ensureNoFlip_le_candidate Real.sqrt Real.pi
      ((unitX ℝ).scale (179 * Real.pi / 180))
      ((unitX ℝ).scale (-(179 * Real.pi / 180))) (-1)
      ((mem_flipRange (-1)).mpr ⟨by decide, by decide⟩)
    rw [flipCandidate_of_neg _ hux _ hneg, norm_scale_sub _ hux] at hb
    have hbound : |-(179 * Real.pi / 180) - 2 * Real.pi * (((-1 : ℤ) : ℝ))
        - 179 * Real.pi / 180| = 2 * Real.pi / 180 := by
      push_cast
      rw [abs_of_pos (by linarith)]
      ring
    rw [hbound] at hb
    rcases ensureNoFlip_mem Real.sqrt Real.pi ((unitX ℝ).scale (179 * Real.pi / 180))
      ((unitX ℝ).scale (-(179 * Real.pi / 180))) with h | ⟨s, _, h⟩
    · rw [h, norm_scale_sub _ hux, abs_of_neg (by linarith)] at hb
      linarith
    · rw [flipCandidate_of_neg _ hux _ hneg] at h
      rw [h, norm_scale_sub _ hux] at hb
      obtain ⟨hb1, hb2⟩ := abs_le.mp hb
      have hs1 : s = -1 := by
        by_contra hne
        rcases lt_or_gt_of_ne hne with hlt | hgt
        · have h2 : s ≤ -2 := by omega
          have h2r : (s : ℝ) ≤ -2 := by exact_mod_cast h2
          have hmul : Real.pi * (s : ℝ) ≤ Real.pi * (-2) :=
            mul_le_mul_of_nonneg_left h2r (le_of_lt hp)
          linarith
        · have h2 : 0 ≤ s := by omega
          have h2r : (0 : ℝ) ≤ (s : ℝ) := by exact_mod_cast h2
          have hmul : 0 ≤ Real.pi * (s : ℝ) := mul_nonneg (le_of_lt hp) h2r
          linarith
      rw [h, hs1]
      congr 1
      push_cast
      ring

theorem squaredNorm_pos_of_ne_zero (r : Vec3 ℝ) (hr : r ≠ ⟨0, 0, 0⟩) :
    0 < r.squaredNorm := by
  unfold Vec3.squaredNorm
  by_contra hcon
  have hx := mul_self_nonneg r.x
  have hy := mul_self_nonneg r.y
  have hz := mul_self_nonneg r.z
  have hx0 : r.x * r.x = 0 := by linarith
  have hy0 : r.y * r.y = 0 := by linarith
  have hz0 : r.z * r.z = 0 := by linarith
  apply hr
  cases r with
  | mk x y z =>
    simp only [Vec3.mk.injEq]
    exact ⟨mul_self_eq_zero.mp hx0, mul_self_eq_zero.mp hy0, mul_self_eq_zero.mp hz0⟩

theorem congruentRep_zero (r : Vec3 ℝ) (hr : r ≠ ⟨0, 0, 0⟩) :
    congruentRep Real.sqrt Real.pi r 0 = r := by
  have hn : 0 < r.norm Real.sqrt := Real.sqrt_pos.mpr (squaredNorm_pos_of_ne_zero r hr)
  have hn0 : r.norm Real.sqrt ≠ 0 := ne_of_gt hn
  have hc : ∀ c : ℝ, c / r.norm Real.sqrt * (r.norm Real.sqrt + 2 * Real.pi * ((0 : ℤ) : ℝ))
      = c := by
    intro c
    push_cast
    rw [mul_zero, add_zero, div_mul_cancel₀ c hn0]
  cases r with
  | mk x y z =>
    simp only [congruentRep, Vec3.scale, Vec3.divScalar, Vec3.mk.injEq]
    exact ⟨hc x, hc y, hc z⟩

theorem storedPose_nil {K : Type} [LinearOrderedField K] (sqrt : K → K) (pi : K)
    (pose : Vec6 K) : storedPose sqrt pi [] pose = pose := by
  simp [storedPose]

theorem storedPose_append {K : Type} [LinearOrderedField K] (sqrt : K → K) (pi : K)
    (posesParse : List (Vec6 K)) (prev pose : Vec6 K) :
    storedPose sqrt pi (posesParse ++ [prev]) pose
      = ⟨pose.head, ensureNoFlip sqrt pi prev.tail pose.tail⟩ := by
  simp [storedPose, List.getD_eq_getElem?_getD]

/-- C14: for every previous vector `pr` and every non-zero current rotation
vector `r`, the stored vector is `r` itself or `(r/‖r‖) * (‖r‖ + 2*pi*s)` for
an integer `s` with `-3 ≤ s ≤ 4`; as `r` is this expression for `s = 0`, the
stored vector is always of this form, collinear with `r` with an angle that
differs from `‖r‖` by whole turns.  The first pose of the sequence (no
previous pose) is stored unchanged, and every later pose is stored with the
result of the search against the last stored pose. -/
theorem disambiguation_keeps_rotation (pr r : Vec3 ℝ) (hr : r ≠ ⟨0, 0, 0⟩) :
    (ensureNoFlip Real.sqrt Real.pi pr r = r
        ∨ ∃ s : ℤ, -3 ≤ s ∧ s ≤ 4
            ∧ ensureNoFlip Real.sqrt Real.pi pr r = congruentRep Real.sqrt Real.pi r s)
      ∧ congruentRep Real.sqrt Real.pi r 0 = r
      ∧ (∃ s : ℤ, -3 ≤ s ∧ s ≤ 4
            ∧ ensureNoFlip Real.sqrt Real.pi pr r
              = (r.divScalar (r.norm Real.sqrt)).scale
                  (r.norm Real.sqrt + 2 * Real.pi * (s : ℝ)))
      ∧ (∀ pose : Vec6 ℝ, storedPose Real.sqrt Real.pi [] pose = pose)
      ∧ (∀ (posesParse : List (Vec6 ℝ)) (prev pose : Vec6 ℝ),
          storedPose Real.sqrt Real.pi (posesParse ++ [prev]) pose
            = ⟨pose.head, ensureNoFlip Real.sqrt Real.pi prev.tail pose.tail⟩) := by
  have hmem : ensureNoFlip Real.sqrt Real.pi pr r = r
      ∨ ∃ s : ℤ, -3 ≤ s ∧ s ≤ 4
          ∧ ensureNoFlip Real.sqrt Real.pi pr r = congruentRep Real.sqrt Real.pi r s := by
    rcases ensureNoFlip_mem Real.sqrt Real.pi pr r with h | ⟨s, hs, h⟩
    · exact Or.inl h
    · obtain ⟨h3, h4⟩ := (mem_flipRange s).mp hs
      exact Or.inr ⟨s, h3, h4, by rw [h, flipCandidate_eq_congruentRep]⟩
  refine ⟨hmem, congruentRep_zero r hr, ?_, storedPose_nil Real.sqrt Real.pi,
    storedPose_append Real.sqrt Real.pi⟩
  rcases hmem with h | ⟨s, h3, h4, h⟩
  · exact ⟨0, by decide, by decide, by rw [h]; exact (congruentRep_zero r hr).symm⟩
  · exact ⟨s, h3, h4, h⟩

/-- C14 witness: previous vector zero, current vector the unit vector along
the first axis. -/
theorem disambiguation_keeps_rotation_witness :
    (ensureNoFlip Real.sqrt Real.pi ⟨0, 0, 0⟩ ⟨1, 0, 0⟩ = ⟨1, 0, 0⟩
        ∨ ∃ s : ℤ, -3 ≤ s ∧ s ≤ 4
            ∧ ensureNoFlip Real.sqrt Real.pi ⟨0, 0, 0⟩ ⟨1, 0, 0⟩
              = congruentRep Real.sqrt Real.pi ⟨1, 0, 0⟩ s)
      ∧ congruentRep Real.sqrt Real.pi ⟨1, 0, 0⟩ 0 = ⟨1, 0, 0⟩
      ∧ (∃ s : ℤ, -3 ≤ s ∧ s ≤ 4
            ∧ ensureNoFlip Real.sqrt Real.pi ⟨0, 0, 0⟩ ⟨1, 0, 0⟩
              = (Vec3.divScalar ⟨1, 0, 0⟩ (Vec3.norm Real.sqrt ⟨1, 0, 0⟩)).scale
                  (Vec3.norm Real.sqrt ⟨1, 0, 0⟩ + 2 * Real.pi * (s : ℝ)))
      ∧ (∀ pose : Vec6 ℝ, storedPose Real.sqrt Real.pi [] pose = pose)
      ∧ (∀ (posesParse : List (Vec6 ℝ)) (prev pose : Vec6 ℝ),
          storedPose Real.sqrt Real.pi (posesParse ++ [prev]) pose
            = ⟨pose.head, ensureNoFlip Real.sqrt Real.pi prev.tail pose.tail⟩) :=
  disambiguation_keeps_rotation ⟨0, 0, 0⟩ ⟨1, 0, 0⟩
    (by intro h; have h1 := congrArg Vec3.x h; simp at h1)

end FlipReal

/-! ## Knot-count selection -/

section SegmentsLemmas

variable {K : Type} [LinearOrderedField K] [FloorRing K]

theorem truncToInt_of_nonneg (x : K) (h0 : 0 ≤ x) (hx : x < 2 ^ 31) :
    truncToInt x = some ⌊x⌋ := by
  unfold truncToInt
  simp only [h0, if_true]
  have h1 : (0 : Int) ≤ ⌊x⌋ := Int.floor_nonneg.mpr h0
  have h2 : ⌊x⌋ < (2 : Int) ^ 31 := by
    rw [Int.floor_lt]
    push_cast
    have e : (2 : K) ^ 31 = 2147483648 := by norm_num
    rw [← e]
    exact hx
  have h3 : INT_MIN ≤ ⌊x⌋ ∧ ⌊x⌋ ≤ INT_MAX := by
    unfold INT_MIN INT_MAX
    constructor <;> omega
  simp [h3]

theorem sizeToInt_of_le (n : Nat) (h : (n : Int) ≤ INT_MAX) : sizeToInt n = n := by
  unfold sizeToInt
  unfold INT_MAX at h
  omega

/-- C3 (as amended): for `n ≥ 1` measurements spanning `elapsedTime > 0` (with
`n` and the rate `n / elapsedTime` in the range of `int`) a segment count is
selected; it stays below `(measPerSecDesired + 1) * elapsedTime`, it does not
exceed `measPerSecDesired * elapsedTime` when the rate is at least 6 (the
truncated rate exceeds 5), and it is `n` itself when the rate is below 6. -/
theorem selectNumSegments_bound (n : Nat) (elapsedTime : K) (hn : 1 ≤ n)
    (hT : 0 < elapsedTime) (hn31 : (n : Int) ≤ INT_MAX)
    (hrate : (n : K) / elapsedTime < 2 ^ 31) :
    ∃ numSegments : Int, selectNumSegments n elapsedTime = some numSegments ∧
      (numSegments : K) < ((measPerSecDesired + 1 : Int) : K) * elapsedTime ∧
      (6 ≤ (n : K) / elapsedTime →
        (numSegments : K) ≤ (measPerSecDesired : K) * elapsedTime) ∧
      ((n : K) / elapsedTime < 6 → numSegments = n) := by
  have hnK : (0 : K) < (n : K) := by exact_mod_cast hn
  have hq0 : 0 ≤ (n : K) / elapsedTime := le_of_lt (div_pos hnK hT)
  have hmps := truncToInt_of_nonneg _ hq0 hrate
  have hd : ((measPerSecDesired : Int) : K) = 5 := by simp [measPerSecDesired]
  have hd1 : ((measPerSecDesired + 1 : Int) : K) = 6 := by
    simp [measPerSecDesired]
  unfold selectNumSegments
  rw [hmps, hd1]
  simp only
  by_cases hgt : ⌊(n : K) / elapsedTime⌋ > measPerSecDesired
  · rw [if_pos hgt]
    have h6 : (6 : Int) ≤ ⌊(n : K) / elapsedTime⌋ := by
      unfold measPerSecDesired at hgt
      omega
    have h6K : (6 : K) ≤ (n : K) / elapsedTime := by
      have := Int.le_floor.mp h6
      simpa using this
    have hnT : 6 * elapsedTime ≤ (n : K) := (le_div_iff₀ hT).mp h6K
    have h5pos : (0 : K) ≤ (measPerSecDesired : K) * elapsedTime := by
      rw [hd]; positivity
    have hn31K : (n : K) < 2 ^ 31 := by
      have h : (n : Int) < 2 ^ 31 := by unfold INT_MAX at hn31; omega
      exact_mod_cast h
    have h5lt : (measPerSecDesired : K) * elapsedTime < 2 ^ 31 := by
      rw [hd]; linarith
    refine ⟨⌊(measPerSecDesired : K) * elapsedTime⌋,
      truncToInt_of_nonneg _ h5pos h5lt, ?_, ?_, ?_⟩
    · have hfl := Int.floor_le ((measPerSecDesired : K) * elapsedTime)
      rw [hd] at hfl ⊢
      linarith
    · intro _
      exact Int.floor_le _
    · intro hlt
      exact absurd h6K (not_le.mpr hlt)
  · rw [if_neg hgt]
    have h5 : ⌊(n : K) / elapsedTime⌋ < (6 : Int) := by
      unfold measPerSecDesired at hgt
      omega
    have h6K : (n : K) / elapsedTime < 6 := by
      have := Int.floor_lt.mp h5
      simpa using this
    have hnT : (n : K) < 6 * elapsedTime := (div_lt_iff₀ hT).mp h6K
    refine ⟨(n : Int), by rw [sizeToInt_of_le n hn31], ?_, ?_, ?_⟩
    · simpa using hnT
    · intro h6
      exact absurd h6 (not_le.mpr h6K)
    · intro _
      rfl

/-- C3 witness: 11 measurements over 2 seconds (rational arithmetic). -/
theorem selectNumSegments_bound_witness :
    ∃ numSegments : Int, selectNumSegments 11 (2 : ℚ) = some numSegments ∧
      (numSegments : ℚ) < ((measPerSecDesired + 1 : Int) : ℚ) * 2 ∧
      (6 ≤ ((11 : Nat) : ℚ) / 2 → (numSegments : ℚ) ≤ (measPerSecDesired : ℚ) * 2) ∧
      (((11 : Nat) : ℚ) / 2 < 6 → numSegments = (11 : Nat)) :=
  selectNumSegments_bound 11 (2 : ℚ) (by decide) (by norm_num)
    (by unfold INT_MAX; decide) (by norm_num)

/-- C3 counterexample: 11 measurements over 2 seconds give the truncated rate
5, which does not exceed `measPerSecDesired`, so 11 segments are selected,
more than `measPerSecDesired * elapsedTime = 10`. -/
theorem selectNumSegments_exceeds_desired_density :
    selectNumSegments 11 (2 : ℚ) = some 11 ∧
      ¬ (((11 : Int) : ℚ) ≤ (measPerSecDesired : ℚ) * 2) := by
  constructor
  · have hfloor : ⌊((11 : Nat) : ℚ) / 2⌋ = 5 := by
      rw [Int.floor_eq_iff]
      norm_num
    have hmps : truncToInt (((11 : Nat) : ℚ) / 2) = some 5 := by
      rw [truncToInt_of_nonneg _ (by norm_num) (by norm_num), hfloor]
    unfold selectNumSegments
    rw [hmps]
    simp only
    rw [if_neg (by decide)]
    rfl
  · unfold measPerSecDesired
    norm_num

theorem selectNumSegments_cases (n : Nat) (elapsedTime : K) (hn : 1 ≤ n)
    (hT : 0 < elapsedTime) (hn31 : (n : Int) ≤ INT_MAX)
    (hrate : (n : K) / elapsedTime < 2 ^ 31) :
    (5 < ⌊(n : K) / elapsedTime⌋ ∧ 5 * elapsedTime < (n : K)
        ∧ selectNumSegments n elapsedTime = some ⌊5 * elapsedTime⌋)
      ∨ (⌊(n : K) / elapsedTime⌋ ≤ 5 ∧ selectNumSegments n elapsedTime = some (n : Int)) := by
  have hnK : (0 : K) < (n : K) := by exact_mod_cast hn
  have hq0 : 0 ≤ (n : K) / elapsedTime := le_of_lt (div_pos hnK hT)
  have hmps := truncToInt_of_nonneg _ hq0 hrate
  have hd : ((measPerSecDesired : Int) : K) = 5 := by simp [measPerSecDesired]
  unfold selectNumSegments
  rw [hmps]
  simp only
  by_cases hgt : ⌊(n : K) / elapsedTime⌋ > measPerSecDesired
  · left
    rw [if_pos hgt, hd]
    have h6 : (6 : Int) ≤ ⌊(n : K) / elapsedTime⌋ := by
      unfold measPerSecDesired at hgt
      omega
    have h6K : (6 : K) ≤ (n : K) / elapsedTime := by
      have := Int.le_floor.mp h6
      simpa using this
    have hnT : 6 * elapsedTime ≤ (n : K) := (le_div_iff₀ hT).mp h6K
    have hn31K : (n : K) < 2 ^ 31 := by
      have h : (n : Int) < 2 ^ 31 := by unfold INT_MAX at hn31; omega
      exact_mod_cast h
    refine ⟨by omega, by linarith, ?_⟩
    exact truncToInt_of_nonneg _ (by positivity) (by linarith)
  · right
    rw [if_neg hgt, sizeToInt_of_le n hn31]
    refine ⟨?_, rfl⟩
    unfold measPerSecDesired at hgt
    omega

/-- C15: for `n ≥ 1` measurements spanning `elapsedTime > 0` (with `n` and the
rate `n / elapsedTime` in the range of `int`), with
`measPerSec = trunc(n / elapsedTime)`, a segment count is selected: it is
`trunc(5 * elapsedTime)` when `measPerSec > 5` and `n` otherwise, and in both
cases it does not exceed `n`. -/
theorem selectNumSegments_le_measurements (n : Nat) (elapsedTime : K) (hn : 1 ≤ n)
    (hT : 0 < elapsedTime) (hn31 : (n : Int) ≤ INT_MAX)
    (hrate : (n : K) / elapsedTime < 2 ^ 31) :
    ∃ numSegments : Int, selectNumSegments n elapsedTime = some numSegments
      ∧ numSegments ≤ (n : Int)
      ∧ (5 < ⌊(n : K) / elapsedTime⌋ → numSegments = ⌊5 * elapsedTime⌋)
      ∧ (⌊(n : K) / elapsedTime⌋ ≤ 5 → numSegments = (n : Int)) := by
  rcases selectNumSegments_cases n elapsedTime hn hT hn31 hrate with
    ⟨hgt, hlt, hsel⟩ | ⟨hle, hsel⟩
  · refine ⟨_, hsel, ?_, fun _ => rfl, fun h => absurd h (by omega)⟩
    have hfl : ⌊5 * elapsedTime⌋ < (n : Int) := by
      rw [Int.floor_lt]
      exact_mod_cast hlt
    exact le_of_lt hfl
  · exact ⟨_, hsel, le_refl _, fun h => absurd h (by omega), fun _ => rfl⟩

/-- C15 witness: 20 measurements over 2 seconds (rational arithmetic). -/
theorem selectNumSegments_le_measurements_witness :
    ∃ numSegments : Int, selectNumSegments 20 (2 : ℚ) = some numSegments
      ∧ numSegments ≤ ((20 : Nat) : Int)
      ∧ (5 < ⌊((20 : Nat) : ℚ) / 2⌋ → numSegments = ⌊5 * (2 : ℚ)⌋)
      ∧ (⌊((20 : Nat) : ℚ) / 2⌋ ≤ 5 → numSegments = ((20 : Nat) : Int)) :=
  selectNumSegments_le_measurements 20 (2 : ℚ) (by decide) (by norm_num)
    (by unfold INT_MAX; decide) (by norm_num)

theorem selectNumSegments_two_tenth : selectNumSegments 2 (1 / 10 : ℚ) = some 0 := by
  have hfloor : ⌊((2 : Nat) : ℚ) / (1 / 10)⌋ = 20 := by
    rw [Int.floor_eq_iff]
    norm_num
  have hmps : truncToInt (((2 : Nat) : ℚ) / (1 / 10)) = some 20 := by
    rw [truncToInt_of_nonneg _ (by norm_num) (by norm_num), hfloor]
  have hfloor5 : ⌊((measPerSecDesired : Int) : ℚ) * (1 / 10)⌋ = 0 := by
    rw [Int.floor_eq_iff]
    unfold measPerSecDesired
    norm_num
  have hseg : truncToInt (((measPerSecDesired : Int) : ℚ) * (1 / 10)) = some 0 := by
    rw [truncToInt_of_nonneg _ (by unfold measPerSecDesired; norm_num)
      (by unfold measPerSecDesired; norm_num), hfloor5]
  unfold selectNumSegments
  rw [hmps]
  simp only
  rw [if_pos (by decide), hseg]

/-- C16: the segment count can be zero: 2 measurements spanning 0.1 s give
`numSegments = 0`; and for `n ≥ 1` measurements spanning `elapsedTime > 0`
(with `n` and the rate in the range of `int`) the selected count is at least 1
exactly when `elapsedTime ≥ 0.2` or `trunc(n / elapsedTime) ≤ 5`. -/
theorem selectNumSegments_zero_or_positive (n : Nat) (elapsedTime : K) (hn : 1 ≤ n)
    (hT : 0 < elapsedTime) (hn31 : (n : Int) ≤ INT_MAX)
    (hrate : (n : K) / elapsedTime < 2 ^ 31) :
    selectNumSegments 2 (1 / 10 : ℚ) = some 0
      ∧ ∃ numSegments : Int, selectNumSegments n elapsedTime = some numSegments
          ∧ (1 ≤ numSegments ↔
              (1 / 5 ≤ elapsedTime ∨ ⌊(n : K) / elapsedTime⌋ ≤ 5)) := by
  refine ⟨selectNumSegments_two_tenth, ?_⟩
  rcases selectNumSegments_cases n elapsedTime hn hT hn31 hrate with
    ⟨hgt, _, hsel⟩ | ⟨hle, hsel⟩
  · refine ⟨_, hsel, ?_⟩
    rw [Int.le_floor]
    push_cast
    constructor
    · intro h
      left
      linarith
    · intro h
      rcases h with h | h
      · linarith
      · omega
  · refine ⟨_, hsel, ?_⟩
    constructor
    · intro _
      exact Or.inr hle
    · intro _
      exact_mod_cast hn

/-- C16 witness: 2 measurements over 0.1 s (rational arithmetic). -/
theorem selectNumSegments_zero_or_positive_witness :
    selectNumSegments 2 (1 / 10 : ℚ) = some 0
      ∧ ∃ numSegments : Int, selectNumSegments 2 (1 / 10 : ℚ) = some numSegments
          ∧ (1 ≤ numSegments ↔
              (1 / 5 ≤ (1 / 10 : ℚ) ∨ ⌊((2 : Nat) : ℚ) / (1 / 10)⌋ ≤ 5)) :=
  selectNumSegments_zero_or_positive 2 (1 / 10 : ℚ) (by decide) (by norm_num)
    (by unfold INT_MAX; decide) (by norm_num)

end SegmentsLemmas

/-! ## Problem assembly -/

section AssemblyLemmas

variable {K : Type} [LinearOrderedField K]

theorem range_map_getD_zip {α β : Type} (l₁ : List α) (l₂ : List β) (d₁ : α) (d₂ : β)
    (hlen : l₁.length = l₂.length) :
    (List.range l₂.length).map (fun i => (l₁.getD i d₁, l₂.getD i d₂)) = List.zip l₁ l₂ := by
  apply List.ext_getElem
  · simp [hlen]
  · intro i h1 h2
    have hi2 : i < l₂.length := by simpa using h1
    have hi1 : i < l₁.length := by omega
    simp [List.getD_eq_getElem, hi1, hi2]

theorem range_map_getD {α : Type} (l : List α) (d : α) :
    (List.range l.length).map (fun i => l.getD i d) = l := by
  apply List.ext_getElem
  · simp
  · intro i h1 h2
    simp [List.getD_eq_getElem, h2]

theorem addOdometryErrorTerms_eq_foldl_zip (ext : Externals K)
    (velocityParse : List (Vec6 K)) (odometryParse : List (Vec5 K)) (st : DriverState K)
    (hlen : velocityParse.length = odometryParse.length) :
    addOdometryErrorTerms ext velocityParse odometryParse st
      = (List.zip velocityParse odometryParse).foldl
          (fun st vo => odometryStep ext st vo.1 vo.2) st := by
  unfold addOdometryErrorTerms
  rw [← range_map_getD_zip velocityParse odometryParse Vec6.zero Vec5.zero hlen,
    List.foldl_map]

theorem odometryStep_of_skip (ext : Externals K) (st : DriverState K) (v : Vec6 K)
    (o : Vec5 K) (h : skipCondition ext v) : odometryStep ext st v o = st := by
  unfold odometryStep
  rw [if_pos h]

theorem odometryStep_of_not_skip (ext : Externals K) (st : DriverState K) (v : Vec6 K)
    (o : Vec5 K) (h : ¬ skipCondition ext v) :
    odometryStep ext st v o
      = { problem := st.problem.addErrorTerm
            (.odometry (attachedOdometryErrorTerm ext v o)),
          errorFile := st.errorFile
            ++ [ext.evaluateError (createOdometryErrorTerm ext v o)] } := by
  unfold odometryStep
  rw [if_neg h]

theorem foldl_odometryStep (ext : Externals K) (l : List (Vec6 K × Vec5 K))
    (st : DriverState K) :
    let out := l.foldl (fun st vo => odometryStep ext st vo.1 vo.2) st
    out.problem.errorTerms = st.problem.errorTerms ++ l.filterMap
        (fun vo => if skipCondition ext vo.1 then none
          else some (ErrorTerm.odometry (attachedOdometryErrorTerm ext vo.1 vo.2)))
      ∧ out.problem.designVariables = st.problem.designVariables
      ∧ out.errorFile.length + l.countP (fun vo => decide (skipCondition ext vo.1))
        = st.errorFile.length + l.length := by
  induction l generalizing st with
  | nil => simp
  | cons vo l ih =>
    simp only [List.foldl_cons]
    obtain ⟨h1, h2, h3⟩ := ih (odometryStep ext st vo.1 vo.2)
    by_cases hs : skipCondition ext vo.1
    · rw [odometryStep_of_skip ext st vo.1 vo.2 hs] at h1 h2 h3 ⊢
      refine ⟨?_, h2, ?_⟩
      · rw [h1]
        simp [List.filterMap_cons, hs]
      · rw [List.countP_cons_of_pos _ _ (by simpa using hs), List.length_cons]
        omega
    · rw [odometryStep_of_not_skip ext st vo.1 vo.2 hs] at h1 h2 h3 ⊢
      refine ⟨?_, ?_, ?_⟩
      · rw [h1]
        simp [List.filterMap_cons, hs, OptimizationProblem.addErrorTerm]
      · rw [h2]
        simp [OptimizationProblem.addErrorTerm]
      · rw [List.countP_cons_of_neg _ _ (by simpa using hs), List.length_cons]
        simp only [List.length_append, List.length_singleton] at h3
        omega

theorem countP_zip_fst {α β : Type} (q : α → Bool) (l₁ : List α) (l₂ : List β)
    (hlen : l₁.length = l₂.length) :
    (List.zip l₁ l₂).countP (fun vo => q vo.1) = l₁.countP q := by
  induction l₁ generalizing l₂ with
  | nil => simp
  | cons a l₁ ih =>
    cases l₂ with
    | nil => simp at hlen
    | cons b l₂ =>
      have hl : l₁.length = l₂.length := by simpa using hlen
      simp only [List.zip_cons_cons, List.countP_cons, ih l₂ hl]

theorem addOdometryErrorTerms_spec (ext : Externals K)
    (velocityParse : List (Vec6 K)) (odometryParse : List (Vec5 K)) (st : DriverState K)
    (hlen : velocityParse.length = odometryParse.length) :
    (addOdometryErrorTerms ext velocityParse odometryParse st).problem.errorTerms
        = st.problem.errorTerms ++ expectedOdometryTerms ext velocityParse odometryParse
      ∧ (addOdometryErrorTerms ext velocityParse odometryParse st).problem.designVariables
        = st.problem.designVariables
      ∧ (addOdometryErrorTerms ext velocityParse odometryParse st).errorFile.length
          + countSkipped ext velocityParse
        = st.errorFile.length + odometryParse.length := by
  rw [addOdometryErrorTerms_eq_foldl_zip ext velocityParse odometryParse st hlen]
  obtain ⟨h1, h2, h3⟩ := foldl_odometryStep ext (List.zip velocityParse odometryParse) st
  refine ⟨h1, h2, ?_⟩
  rw [countP_zip_fst (fun v => decide (skipCondition ext v)) velocityParse odometryParse
    hlen] at h3
  unfold countSkipped
  rw [h3, List.length_zip, hlen, min_self]

theorem length_expectedOdometryTerms (ext : Externals K)
    (velocityParse : List (Vec6 K)) (odometryParse : List (Vec5 K))
    (hlen : velocityParse.length = odometryParse.length) :
    (expectedOdometryTerms ext velocityParse odometryParse).length
        + countSkipped ext velocityParse = odometryParse.length := by
  unfold expectedOdometryTerms countSkipped
  rw [← countP_zip_fst (fun v => decide (skipCondition ext v)) velocityParse odometryParse
    hlen]
  have hz : (List.zip velocityParse odometryParse).length = odometryParse.length := by
    rw [List.length_zip, hlen, min_self]
  rw [← hz]
  generalize List.zip velocityParse odometryParse = l
  induction l with
  | nil => simp
  | cons vo l ih =>
    by_cases hs : skipCondition ext vo.1
    · rw [List.countP_cons_of_pos _ _ (by simpa using hs), List.length_cons,
        List.filterMap_cons]
      simp only [hs, if_true]
      omega
    · rw [List.countP_cons_of_neg _ _ (by simpa using hs), List.length_cons,
        List.filterMap_cons]
      simp only [hs, if_false, List.length_cons]
      omega

theorem expectedOdometryTerms_all_odometry (ext : Externals K)
    (velocityParse : List (Vec6 K)) (odometryParse : List (Vec5 K)) :
    ∀ e ∈ expectedOdometryTerms ext velocityParse odometryParse, e.isOdometry = true := by
  intro e he
  unfold expectedOdometryTerms at he
  rw [List.mem_filterMap] at he
  obtain ⟨vo, _, hvo⟩ := he
  by_cases hs : skipCondition ext vo.1
  · simp [hs] at hvo
  · simp only [hs, if_false, Option.some.injEq] at hvo
    rw [← hvo]
    rfl

/-- C4: in one iteration of the odometry loop the measurement is passed over
(the error terms of the problem stay as they were) if and only if
`|v_oo.x| < epsilon` and `|om_oo.z| < epsilon`, with
`v_oo = C_io^-1 (v + om x t_io)` and `om_oo = C_io^-1 om`; otherwise exactly
its own error term is appended.  Over the whole loop the problem receives, in
order, one error term for every measurement that does not meet the skip
condition and none for the others. -/
theorem odometry_skip_rule (ext : Externals K) (velocityParse : List (Vec6 K))
    (odometryParse : List (Vec5 K)) (st : DriverState K)
    (hlen : velocityParse.length = odometryParse.length) :
    (∀ (v : Vec6 K) (o : Vec5 K) (s : DriverState K),
        ((|(ext.C_io_inv (v.head.add (v.tail.cross ext.t_io))).x| < epsilon
            ∧ |(ext.C_io_inv v.tail).z| < epsilon)
          ↔ (odometryStep ext s v o).problem.errorTerms = s.problem.errorTerms)
        ∧ (¬ (|(ext.C_io_inv (v.head.add (v.tail.cross ext.t_io))).x| < epsilon
              ∧ |(ext.C_io_inv v.tail).z| < epsilon)
            → (odometryStep ext s v o).problem.errorTerms
              = s.problem.errorTerms
                ++ [ErrorTerm.odometry (attachedOdometryErrorTerm ext v o)]))
      ∧ (addOdometryErrorTerms ext velocityParse odometryParse st).problem.errorTerms
        = st.problem.errorTerms ++ expectedOdometryTerms ext velocityParse odometryParse
      ∧ (expectedOdometryTerms ext velocityParse odometryParse).length
          + countSkipped ext velocityParse = odometryParse.length := by
  refine ⟨?_, (addOdometryErrorTerms_spec ext velocityParse odometryParse st hlen).1,
    length_expectedOdometryTerms ext velocityParse odometryParse hlen⟩
  intro v o s
  have hdef : (|(ext.C_io_inv (v.head.add (v.tail.cross ext.t_io))).x| < epsilon
      ∧ |(ext.C_io_inv v.tail).z| < epsilon) ↔ skipCondition ext v := Iff.rfl
  rw [hdef]
  by_cases hs : skipCondition ext v
  · rw [odometryStep_of_skip ext s v o hs]
    simp [hs]
  · rw [odometryStep_of_not_skip ext s v o hs]
    simp [hs, OptimizationProblem.addErrorTerm]

/-- C4 witness: the sample environment with one measurement at rest. -/
theorem odometry_skip_rule_witness :
    (∀ (v : Vec6 ℚ) (o : Vec5 ℚ) (s : DriverState ℚ),
        ((|(sampleExternals.C_io_inv (v.head.add (v.tail.cross sampleExternals.t_io))).x|
              < epsilon
            ∧ |(sampleExternals.C_io_inv v.tail).z| < epsilon)
          ↔ (odometryStep sampleExternals s v o).problem.errorTerms = s.problem.errorTerms)
        ∧ (¬ (|(sampleExternals.C_io_inv
                  (v.head.add (v.tail.cross sampleExternals.t_io))).x| < epsilon
              ∧ |(sampleExternals.C_io_inv v.tail).z| < epsilon)
            → (odometryStep sampleExternals s v o).problem.errorTerms
              = s.problem.errorTerms
                ++ [ErrorTerm.odometry (attachedOdometryErrorTerm sampleExternals v o)]))
      ∧ (addOdometryErrorTerms sampleExternals [Vec6.zero] [Vec5.zero]
            emptyState).problem.errorTerms
        = emptyState.problem.errorTerms
          ++ expectedOdometryTerms sampleExternals [Vec6.zero] [Vec5.zero]
      ∧ (expectedOdometryTerms sampleExternals [Vec6.zero] [Vec5.zero]).length
          + countSkipped sampleExternals [Vec6.zero] = ([Vec5.zero] : List (Vec5 ℚ)).length :=
  odometry_skip_rule sampleExternals [Vec6.zero] [Vec5.zero] emptyState rfl

theorem skipCondition_sample_zero : skipCondition sampleExternals Vec6.zero := by
  simp only [skipCondition, v_oo, om_oo, sampleExternals, Vec6.zero, Vec3.add, Vec3.cross,
    epsilon, id]
  norm_num

theorem countSkipped_sample_zero : countSkipped sampleExternals [Vec6.zero] = 1 := by
  unfold countSkipped
  rw [List.countP_cons_of_pos _ _ (by simpa using skipCondition_sample_zero)]
  rfl

theorem addOdometryErrorTerms_sample_zero :
    addOdometryErrorTerms sampleExternals [Vec6.zero] [Vec5.zero] emptyState
      = emptyState := by
  rw [addOdometryErrorTerms_eq_foldl_zip _ _ _ _ rfl]
  simp only [List.zip_cons_cons, List.zip_nil_right, List.foldl_cons, List.foldl_nil]
  exact odometryStep_of_skip _ _ _ _ skipCondition_sample_zero

/-- C5 (as amended): a measurement meeting the skip condition is passed over
without any record: the iteration returns the problem and the error file as
they were, and no counter is kept.  The number of skipped measurements is
only the difference between the number of measurements and the number of
error terms added (equally, of lines written to `errors.txt`). -/
theorem skipped_measurement_dropped_silently (ext : Externals K)
    (velocityParse : List (Vec6 K)) (odometryParse : List (Vec5 K)) (st : DriverState K)
    (hlen : velocityParse.length = odometryParse.length) :
    (∀ (v : Vec6 K) (o : Vec5 K) (s : DriverState K),
        skipCondition ext v → odometryStep ext s v o = s)
      ∧ (addOdometryErrorTerms ext velocityParse odometryParse st).problem.errorTerms.length
          + countSkipped ext velocityParse
        = st.problem.errorTerms.length + odometryParse.length
      ∧ (addOdometryErrorTerms ext velocityParse odometryParse st).errorFile.length
          + countSkipped ext velocityParse
        = st.errorFile.length + odometryParse.length := by
  obtain ⟨h1, _, h3⟩ := addOdometryErrorTerms_spec ext velocityParse odometryParse st hlen
  refine ⟨fun v o s h => odometryStep_of_skip ext s v o h, ?_, h3⟩
  rw [h1, List.length_append]
  have := length_expectedOdometryTerms ext velocityParse odometryParse hlen
  omega

/-- C5 witness: the sample environment with one measurement at rest. -/
theorem skipped_measurement_dropped_silently_witness :
    (∀ (v : Vec6 ℚ) (o : Vec5 ℚ) (s : DriverState ℚ),
        skipCondition sampleExternals v → odometryStep sampleExternals s v o = s)
      ∧ (addOdometryErrorTerms sampleExternals [Vec6.zero] [Vec5.zero]
            emptyState).problem.errorTerms.length
          + countSkipped sampleExternals [Vec6.zero]
        = emptyState.problem.errorTerms.length + ([Vec5.zero] : List (Vec5 ℚ)).length
      ∧ (addOdometryErrorTerms sampleExternals [Vec6.zero] [Vec5.zero]
            emptyState).errorFile.length
          + countSkipped sampleExternals [Vec6.zero]
        = emptyState.errorFile.length + ([Vec5.zero] : List (Vec5 ℚ)).length :=
  skipped_measurement_dropped_silently sampleExternals [Vec6.zero] [Vec5.zero]
    emptyState rfl

/-- C5 counterexample: with one measurement at rest, which is skipped, the
loop returns the state it started from, the same state as for no measurement
at all, although the numbers of skipped measurements are 1 and 0: nothing in
the state or the error file holds the count. -/
theorem skipped_measurement_not_counted :
    addOdometryErrorTerms sampleExternals [Vec6.zero] [Vec5.zero] emptyState = emptyState
      ∧ addOdometryErrorTerms sampleExternals [] [] emptyState = emptyState
      ∧ countSkipped sampleExternals [Vec6.zero] = 1
      ∧ countSkipped sampleExternals [] = 0 :=
  ⟨addOdometryErrorTerms_sample_zero, rfl, countSkipped_sample_zero, rfl⟩

/-- C6 (as amended): the wheel error term has residual dimension 3, and its
measurement covariance is a 3x3 matrix. -/
theorem errorTermWheel_dimension {F : Type} (e : ErrorTermWheel F) :
    e.toErrorTermFs.dimension = 3 ∧ ErrorTermWheel.covarianceSize = 3 :=
  ⟨rfl, rfl⟩

/-- C6 counterexample: a wheel error term whose residual dimension and
covariance size are not 2. -/
theorem errorTermWheel_dimension_not_two :
    ¬ ((ErrorTermWheel.construct (⟨0, 0, 0⟩ : Vec3 ℚ) 0 0 0).toErrorTermFs.dimension = 2
      ∧ ErrorTermWheel.covarianceSize = 2) := by
  intro h
  exact absurd h.2 (by decide)

theorem foldl_create_pose {F α : Type} (g : Nat → α) (l : List Nat)
    (p : OptimizationProblem F) (l0 : List α) :
    l.foldl (fun (acc : OptimizationProblem F × List α) i => (acc.1, acc.2 ++ [g i]))
        (p, l0)
      = (p, l0 ++ l.map g) := by
  induction l generalizing l0 with
  | nil => simp
  | cons i l ih =>
    simp only [List.foldl_cons, List.map_cons]
    rw [ih]
    simp

theorem addPoseErrorTerms_eq (ext : Externals K) (timestampsParse : List K)
    (posesParse : List (Vec6 K)) (problem : OptimizationProblem K) :
    addPoseErrorTerms ext timestampsParse posesParse problem
      = (problem, (List.range posesParse.length).map
          (fun i => createPoseErrorTerm ext (timestampsParse.getD i 0)
            (posesParse.getD i Vec6.zero))) := by
  unfold addPoseErrorTerms
  rw [foldl_create_pose]
  simp

/-- C7 (as amended): no delay enters either error term.  The pose error terms
the batch driver builds take the spline transformation at the measurement
timestamps themselves, `timestampsParse[i]`, one term per pose measurement;
and the constructor of the wheel error term has the parameters `v_v_mw`, `k`,
`measurement`, `sigma2Wheel` and `frontEnabled`, none of which is a delay. -/
theorem pose_error_terms_query_time (ext : Externals K) (timestampsParse : List K)
    (posesParse : List (Vec6 K)) (problem : OptimizationProblem K)
    (hlen : timestampsParse.length = posesParse.length) :
    (addPoseErrorTerms ext timestampsParse posesParse problem).2.map (fun e => e.queryTime)
        = timestampsParse
      ∧ (addPoseErrorTerms ext timestampsParse posesParse problem).2.length
        = posesParse.length
      ∧ ErrorTermWheel.constructorParameters.length = 5
      ∧ "delay" ∉ ErrorTermWheel.constructorParameters := by
  rw [addPoseErrorTerms_eq]
  refine ⟨?_, by simp, rfl, by decide⟩
  simp only [List.map_map]
  rw [← hlen]
  exact range_map_getD timestampsParse 0

/-- C7 witness: one pose measurement at time 0 in the sample environment. -/
theorem pose_error_terms_query_time_witness :
    (addPoseErrorTerms sampleExternals [0] [Vec6.zero] OptimizationProblem.empty).2.map
          (fun e => e.queryTime) = [0]
      ∧ (addPoseErrorTerms sampleExternals [0] [Vec6.zero] OptimizationProblem.empty).2.length
        = ([Vec6.zero] : List (Vec6 ℚ)).length
      ∧ ErrorTermWheel.constructorParameters.length = 5
      ∧ "delay" ∉ ErrorTermWheel.constructorParameters :=
  pose_error_terms_query_time sampleExternals [0] [Vec6.zero] OptimizationProblem.empty rfl

theorem sample_pose_query_times :
    (addPoseErrorTerms sampleExternals [0] [Vec6.zero] OptimizationProblem.empty).2.map
        (fun e => e.queryTime) = [0] := by
  rw [addPoseErrorTerms_eq]
  rfl

/-- C7 counterexample: for one pose measurement at time 0 and the delay
`d = 1`, the pose error term built takes the spline at time 0, not at
`0 + d`. -/
theorem pose_error_term_ignores_delay :
    ¬ ((addPoseErrorTerms sampleExternals [0] [Vec6.zero] OptimizationProblem.empty).2.map
        (fun e => e.queryTime) = [0 + 1]) := by
  rw [sample_pose_query_times]
  intro h
  simp at h

theorem foldl_addDesignVariable {F : Type} (g : Nat → DesignVariable) (l : List Nat)
    (p : OptimizationProblem F) :
    l.foldl (fun p i => p.addDesignVariable (g i)) p
      = { designVariables := p.designVariables ++ l.map g, errorTerms := p.errorTerms } := by
  induction l generalizing p with
  | nil => simp
  | cons i l ih =>
    simp only [List.foldl_cons, List.map_cons]
    rw [ih]
    simp [OptimizationProblem.addDesignVariable]

theorem assembleProblem_problem (ext : Externals K) (timestampsParse : List K)
    (posesParse velocityParse : List (Vec6 K)) (odometryParse : List (Vec5 K))
    (hlen : velocityParse.length = odometryParse.length) :
    (assembleProblem ext timestampsParse posesParse velocityParse
        odometryParse).problem.errorTerms
      = expectedOdometryTerms ext velocityParse odometryParse := by
  unfold assembleProblem
  simp only
  obtain ⟨h1, _, _⟩ := addOdometryErrorTerms_spec ext velocityParse odometryParse
    { problem := addCalibrationDesignVariables ext
        (addPoseErrorTerms ext timestampsParse posesParse
          (addSplineDesignVariables ext OptimizationProblem.empty)).1,
      errorFile := [] } hlen
  rw [h1, addPoseErrorTerms_eq]
  unfold addSplineDesignVariables
  rw [foldl_addDesignVariable]
  simp [addCalibrationDesignVariables, OptimizationProblem.addDesignVariable,
    OptimizationProblem.empty]

/-- C8 (as amended): after assembly the error terms of the problem are
exactly the odometry error terms of the measurements that do not meet the
skip condition, one each and in order; the pose error terms are created but
not attached, so the problem holds no pose error term. -/
theorem assembled_error_terms (ext : Externals K) (timestampsParse : List K)
    (posesParse velocityParse : List (Vec6 K)) (odometryParse : List (Vec5 K))
    (hlen : velocityParse.length = odometryParse.length) :
    (assembleProblem ext timestampsParse posesParse velocityParse
        odometryParse).problem.errorTerms
        = expectedOdometryTerms ext velocityParse odometryParse
      ∧ (assembleProblem ext timestampsParse posesParse velocityParse
          odometryParse).problem.errorTerms.countP ErrorTerm.isPose = 0
      ∧ (assembleProblem ext timestampsParse posesParse velocityParse
          odometryParse).problem.errorTerms.length + countSkipped ext velocityParse
        = odometryParse.length := by
  have h1 := assembleProblem_problem ext timestampsParse posesParse velocityParse
    odometryParse hlen
  rw [h1]
  refine ⟨rfl, ?_, length_expectedOdometryTerms ext velocityParse odometryParse hlen⟩
  rw [List.countP_eq_zero]
  intro e he
  have hodo := expectedOdometryTerms_all_odometry ext velocityParse odometryParse e he
  cases e with
  | pose _ => simp [ErrorTerm.isOdometry] at hodo
  | odometry _ => simp [ErrorTerm.isPose]

/-- C8 witness: the sample environment with one pose measurement and one
odometry measurement at rest. -/
theorem assembled_error_terms_witness :
    (assembleProblem sampleExternals [0] [Vec6.zero] [Vec6.zero]
        [Vec5.zero]).problem.errorTerms
        = expectedOdometryTerms sampleExternals [Vec6.zero] [Vec5.zero]
      ∧ (assembleProblem sampleExternals [0] [Vec6.zero] [Vec6.zero]
          [Vec5.zero]).problem.errorTerms.countP ErrorTerm.isPose = 0
      ∧ (assembleProblem sampleExternals [0] [Vec6.zero] [Vec6.zero]
          [Vec5.zero]).problem.errorTerms.length + countSkipped sampleExternals [Vec6.zero]
        = ([Vec5.zero] : List (Vec5 ℚ)).length :=
  assembled_error_terms sampleExternals [0] [Vec6.zero] [Vec6.zero] [Vec5.zero] rfl

/-- C8 counterexample: with one pose measurement (and no odometry
measurement) one pose error term is created, yet the assembled problem holds
no pose error term. -/
theorem pose_error_term_not_attached :
    (addPoseErrorTerms sampleExternals [0] [Vec6.zero] OptimizationProblem.empty).2.length = 1
      ∧ ¬ ((assembleProblem sampleExternals [0] [Vec6.zero] [] []).problem.errorTerms.countP
          ErrorTerm.isPose = ([Vec6.zero] : List (Vec6 ℚ)).length) := by
  constructor
  · rw [addPoseErrorTerms_eq]
    rfl
  · have h := assembleProblem_problem sampleExternals [0] [Vec6.zero] [] [] rfl
    rw [h]
    decide

theorem foldl_odometryStep_designVariables (ext : Externals K) (f : Nat → Vec6 K)
    (g : Nat → Vec5 K) (l : List Nat) (st : DriverState K) :
    (l.foldl (fun st i => odometryStep ext st (f i) (g i)) st).problem.designVariables
      = st.problem.designVariables := by
  induction l generalizing st with
  | nil => rfl
  | cons i l ih =>
    simp only [List.foldl_cons]
    rw [ih]
    unfold odometryStep
    split_ifs
    · rfl
    · rfl

theorem assembleProblem_designVariables (ext : Externals K) (timestampsParse : List K)
    (posesParse velocityParse : List (Vec6 K)) (odometryParse : List (Vec5 K)) :
    (assembleProblem ext timestampsParse posesParse velocityParse
        odometryParse).problem.designVariables
      = (List.range ext.numDesignVariables).map
          (fun i => (⟨.spline i, ext.dvInitiallyActive⟩ : DesignVariable))
        ++ [⟨.cpdv, true⟩, ⟨.t_io_dv, ext.dvInitiallyActive⟩,
            ⟨.C_io_dv, ext.dvInitiallyActive⟩] := by
  unfold assembleProblem addOdometryErrorTerms
  simp only
  rw [foldl_odometryStep_designVariables, addPoseErrorTerms_eq]
  unfold addSplineDesignVariables
  rw [foldl_addDesignVariable]
  simp [addCalibrationDesignVariables, OptimizationProblem.addDesignVariable,
    OptimizationProblem.empty, DesignVariable.create, DesignVariable.setActive]

/-- C9 (as amended): given that a design variable is inactive until
`setActive(true)` is called, when the problem is handed to the optimizer its
design variables are the control-point variables of the spline, the car
parameter vector, the extrinsic translation and the extrinsic rotation, in
this order, and among them exactly the car parameter vector is active; the
spline control points and the extrinsics are registered inactive. -/
theorem only_car_parameters_active (ext : Externals K) (timestampsParse : List K)
    (posesParse velocityParse : List (Vec6 K)) (odometryParse : List (Vec5 K))
    (hinactive : ext.dvInitiallyActive = false) :
    (assembleProblem ext timestampsParse posesParse velocityParse
        odometryParse).problem.designVariables.map (fun dv => dv.id)
        = (List.range ext.numDesignVariables).map (fun i => DesignVariableId.spline i)
          ++ [.cpdv, .t_io_dv, .C_io_dv]
      ∧ ∀ dv ∈ (assembleProblem ext timestampsParse posesParse velocityParse
          odometryParse).problem.designVariables,
        (dv.active = true ↔ dv.id = DesignVariableId.cpdv) := by
  rw [assembleProblem_designVariables, hinactive]
  constructor
  · simp
  · intro dv hdv
    rw [List.mem_append] at hdv
    rcases hdv with h | h
    · rw [List.mem_map] at h
      obtain ⟨i, _, hi⟩ := h
      rw [← hi]
      simp
    · simp only [List.mem_cons, List.mem_singleton, List.not_mem_nil, or_false] at h
      rcases h with h | h | h <;> rw [h] <;> simp

/-- C9 witness: the sample environment, where new design variables are
inactive, with one pose and one odometry measurement. -/
theorem only_car_parameters_active_witness :
    (assembleProblem sampleExternals [0] [Vec6.zero] [Vec6.zero]
        [Vec5.zero]).problem.designVariables.map (fun dv => dv.id)
        = (List.range sampleExternals.numDesignVariables).map
            (fun i => DesignVariableId.spline i)
          ++ [.cpdv, .t_io_dv, .C_io_dv]
      ∧ ∀ dv ∈ (assembleProblem sampleExternals [0] [Vec6.zero] [Vec6.zero]
          [Vec5.zero]).problem.designVariables,
        (dv.active = true ↔ dv.id = DesignVariableId.cpdv) :=
  only_car_parameters_active sampleExternals [0] [Vec6.zero] [Vec6.zero] [Vec5.zero] rfl

/-- C9 counterexample: in the sample environment, where new design variables
are inactive, the problem handed to the optimizer (here without measurements)
has a registered design variable, the extrinsic translation, that is not
active. -/
theorem not_all_design_variables_active :
    sampleExternals.dvInitiallyActive = false
      ∧ ¬ ∀ dv ∈ (assembleProblem sampleExternals [] [] [] []).problem.designVariables,
          dv.active = true := by
  refine ⟨rfl, ?_⟩
  rw [assembleProblem_designVariables]
  intro h
  have h1 := h ⟨.t_io_dv, false⟩ (by simp [sampleExternals])
  simp at h1

end AssemblyLemmas

/-! ## Calibrator options -/

section OptionsLemmas

variable {K : Type}

theorem exists_missing_iff (config : PropertyTree K) :
    (∃ key ∈ requiredKeys, config.missing key) ↔
      (config.doubles "windowDuration" = none ∨
        config.bools "verbose" = none ∨
        config.ints "delayBound" = none ∨
        config.doubles "splines/transSplineLambda" = none ∨
        config.doubles "splines/rotSplineLambda" = none ∨
        config.ints "splines/splineKnotsPerSecond" = none ∨
        config.ints "splines/rotSplineOrder" = none ∨
        config.doubles "odometry/sensors/wss/noise/lwVariance" = none ∨
        config.doubles "odometry/sensors/wss/noise/rwVariance" = none ∨
        config.doubles "odometry/constraints/noise/vyVariance" = none ∨
        config.doubles "odometry/constraints/noise/vzVariance" = none) := by
  simp [requiredKeys, PropertyTree.missing]

theorem fromPropertyTree_fails_iff (config : PropertyTree K) (indeterminate : Int) :
    (CalibratorOptions.fromPropertyTree config indeterminate).toOption = none ↔
      (config.doubles "windowDuration" = none ∨
        config.bools "verbose" = none ∨
        config.ints "delayBound" = none ∨
        config.doubles "splines/transSplineLambda" = none ∨
        config.doubles "splines/rotSplineLambda" = none ∨
        config.ints "splines/splineKnotsPerSecond" = none ∨
        config.ints "splines/rotSplineOrder" = none ∨
        config.doubles "odometry/sensors/wss/noise/lwVariance" = none ∨
        config.doubles "odometry/sensors/wss/noise/rwVariance" = none ∨
        config.doubles "odometry/constraints/noise/vyVariance" = none ∨
        config.doubles "odometry/constraints/noise/vzVariance" = none) := by
  unfold CalibratorOptions.fromPropertyTree PropertyTree.getDouble PropertyTree.getInt
    PropertyTree.getBool
  cases h1 : config.doubles "windowDuration" with
  | none => simp [bind, Except.bind, Except.toOption, pure, Except.pure]
  | some v1 =>
    cases h2 : config.bools "verbose" with
    | none => simp [bind, Except.bind, Except.toOption, pure, Except.pure]
    | some v2 =>
      cases h3 : config.ints "delayBound" with
      | none => simp [bind, Except.bind, Except.toOption, pure, Except.pure]
      | some v3 =>
        cases h4 : config.doubles "splines/transSplineLambda" with
        | none => simp [bind, Except.bind, Except.toOption, pure, Except.pure]
        | some v4 =>
          cases h5 : config.doubles "splines/rotSplineLambda" with
          | none => simp [bind, Except.bind, Except.toOption, pure, Except.pure]
          | some v5 =>
            cases h6 : config.ints "splines/splineKnotsPerSecond" with
            | none => simp [bind, Except.bind, Except.toOption, pure, Except.pure]
            | some v6 =>
              cases h7 : config.ints "splines/rotSplineOrder" with
              | none => simp [bind, Except.bind, Except.toOption, pure, Except.pure]
              | some v7 =>
                cases h8 : config.doubles "odometry/sensors/wss/noise/lwVariance" with
                | none => simp [bind, Except.bind, Except.toOption, pure, Except.pure]
                | some v8 =>
                  cases h9 : config.doubles "odometry/sensors/wss/noise/rwVariance" with
                  | none => simp [bind, Except.bind, Except.toOption, pure, Except.pure]
                  | some v9 =>
                    cases h10 : config.doubles "odometry/constraints/noise/vyVariance" with
                    | none => simp [bind, Except.bind, Except.toOption, pure, Except.pure]
                    | some v10 =>
                      cases h11 : config.doubles "odometry/constraints/noise/vzVariance" with
                      | none => simp [bind, Except.bind, Except.toOption, pure, Except.pure]
                      | some v11 =>
                        simp [bind, Except.bind, Except.toOption, pure, Except.pure]

theorem fromPropertyTree_fields (config : PropertyTree K) (indeterminate : Int) :
    ∀ opts : CalibratorOptions K,
      CalibratorOptions.fromPropertyTree config indeterminate = .ok opts →
      config.doubles "windowDuration" = some opts.windowDuration
        ∧ config.bools "verbose" = some opts.verbose
        ∧ config.ints "delayBound" = some opts.delayBound
        ∧ config.doubles "splines/transSplineLambda" = some opts.transSplineLambda
        ∧ config.doubles "splines/rotSplineLambda" = some opts.rotSplineLambda
        ∧ config.ints "splines/splineKnotsPerSecond" = some opts.splineKnotsPerSecond
        ∧ config.ints "splines/rotSplineOrder" = some opts.rotSplineOrder
        ∧ config.doubles "odometry/sensors/wss/noise/lwVariance" = some opts.lwVariance
        ∧ config.doubles "odometry/sensors/wss/noise/rwVariance" = some opts.rwVariance
        ∧ config.doubles "odometry/constraints/noise/vyVariance" = some opts.vyVariance
        ∧ config.doubles "odometry/constraints/noise/vzVariance" = some opts.vzVariance
        ∧ opts.transSplineOrder
          = config.getIntDefault "splines/transSplineOrder" indeterminate := by
  unfold CalibratorOptions.fromPropertyTree PropertyTree.getDouble PropertyTree.getInt
    PropertyTree.getBool
  cases h1 : config.doubles "windowDuration" with
  | none => simp [bind, Except.bind, pure, Except.pure]
  | some v1 =>
    cases h2 : config.bools "verbose" with
    | none => simp [bind, Except.bind, pure, Except.pure]
    | some v2 =>
      cases h3 : config.ints "delayBound" with
      | none => simp [bind, Except.bind, pure, Except.pure]
      | some v3 =>
        cases h4 : config.doubles "splines/transSplineLambda" with
        | none => simp [bind, Except.bind, pure, Except.pure]
        | some v4 =>
          cases h5 : config.doubles "splines/rotSplineLambda" with
          | none => simp [bind, Except.bind, pure, Except.pure]
          | some v5 =>
            cases h6 : config.ints "splines/splineKnotsPerSecond" with
            | none => simp [bind, Except.bind, pure, Except.pure]
            | some v6 =>
              cases h7 : config.ints "splines/rotSplineOrder" with
              | none => simp [bind, Except.bind, pure, Except.pure]
              | some v7 =>
                cases h8 : config.doubles "odometry/sensors/wss/noise/lwVariance" with
                | none => simp [bind, Except.bind, pure, Except.pure]
                | some v8 =>
                  cases h9 : config.doubles "odometry/sensors/wss/noise/rwVariance" with
                  | none => simp [bind, Except.bind, pure, Except.pure]
                  | some v9 =>
                    cases h10 : config.doubles "odometry/constraints/noise/vyVariance" with
                    | none => simp [bind, Except.bind, pure, Except.pure]
                    | some v10 =>
                      cases h11 : config.doubles "odometry/constraints/noise/vzVariance" with
                      | none => simp [bind, Except.bind, pure, Except.pure]
                      | some v11 =>
                        intro opts h
                        simp only [bind, Except.bind, pure, Except.pure, Except.ok.injEq] at h
                        subst h
                        simp

/-- C10: constructing the options from a property tree fails, producing no
options value, if and only if at least one of the eleven keys looked up without
a default is missing; `splines/transSplineOrder` is not among them; and when
the construction succeeds every field equals the value stored under its own
key (for `transSplineOrder`, whenever its key holds a value). -/
theorem calibratorOptions_required_and_optional_keys (config : PropertyTree K)
    (indeterminate : Int) :
    ((CalibratorOptions.fromPropertyTree config indeterminate).toOption = none ↔
        ∃ key ∈ requiredKeys, config.missing key)
      ∧ requiredKeys.length = 11
      ∧ ("splines/transSplineOrder", KeyType.int) ∉ requiredKeys
      ∧ ∀ opts : CalibratorOptions K,
          CalibratorOptions.fromPropertyTree config indeterminate = .ok opts →
          config.doubles "windowDuration" = some opts.windowDuration
            ∧ config.bools "verbose" = some opts.verbose
            ∧ config.ints "delayBound" = some opts.delayBound
            ∧ config.doubles "splines/transSplineLambda" = some opts.transSplineLambda
            ∧ config.doubles "splines/rotSplineLambda" = some opts.rotSplineLambda
            ∧ config.ints "splines/splineKnotsPerSecond" = some opts.splineKnotsPerSecond
            ∧ config.ints "splines/rotSplineOrder" = some opts.rotSplineOrder
            ∧ config.doubles "odometry/sensors/wss/noise/lwVariance" = some opts.lwVariance
            ∧ config.doubles "odometry/sensors/wss/noise/rwVariance" = some opts.rwVariance
            ∧ config.doubles "odometry/constraints/noise/vyVariance" = some opts.vyVariance
            ∧ config.doubles "odometry/constraints/noise/vzVariance" = some opts.vzVariance
            ∧ ∀ v : Int, config.ints "splines/transSplineOrder" = some v →
                opts.transSplineOrder = v := by
  refine ⟨?_, rfl, by decide, ?_⟩
  · rw [fromPropertyTree_fails_iff, exists_missing_iff]
  · intro opts h
    have hf := fromPropertyTree_fields config indeterminate opts h
    obtain ⟨h1, h2, h3, h4, h5, h6, h7, h8, h9, h10, h11, h12⟩ := hf
    refine ⟨h1, h2, h3, h4, h5, h6, h7, h8, h9, h10, h11, ?_⟩
    intro v hv
    rw [h12]
    unfold PropertyTree.getIntDefault
    rw [hv]

/-- C10 witness: the sample configuration, which holds every key, so that the
construction succeeds. -/
theorem calibratorOptions_required_and_optional_keys_witness :
    (∃ opts : CalibratorOptions ℚ,
        CalibratorOptions.fromPropertyTree sampleConfig 0 = .ok opts)
      ∧ (
    ((CalibratorOptions.fromPropertyTree sampleConfig 0).toOption = none ↔
        ∃ key ∈ requiredKeys, sampleConfig.missing key)
      ∧ requiredKeys.length = 11
      ∧ ("splines/transSplineOrder", KeyType.int) ∉ requiredKeys
      ∧ ∀ opts : CalibratorOptions ℚ,
          CalibratorOptions.fromPropertyTree sampleConfig 0 = .ok opts →
          sampleConfig.doubles "windowDuration" = some opts.windowDuration
            ∧ sampleConfig.bools "verbose" = some opts.verbose
            ∧ sampleConfig.ints "delayBound" = some opts.delayBound
            ∧ sampleConfig.doubles "splines/transSplineLambda" = some opts.transSplineLambda
            ∧ sampleConfig.doubles "splines/rotSplineLambda" = some opts.rotSplineLambda
            ∧ sampleConfig.ints "splines/splineKnotsPerSecond" = some opts.splineKnotsPerSecond
            ∧ sampleConfig.ints "splines/rotSplineOrder" = some opts.rotSplineOrder
            ∧ sampleConfig.doubles "odometry/sensors/wss/noise/lwVariance" = some opts.lwVariance
            ∧ sampleConfig.doubles "odometry/sensors/wss/noise/rwVariance" = some opts.rwVariance
            ∧ sampleConfig.doubles "odometry/constraints/noise/vyVariance" = some opts.vyVariance
            ∧ sampleConfig.doubles "odometry/constraints/noise/vzVariance" = some opts.vzVariance
            ∧ ∀ v : Int, sampleConfig.ints "splines/transSplineOrder" = some v →
                opts.transSplineOrder = v) :=
  ⟨⟨_, rfl⟩, calibratorOptions_required_and_optional_keys sampleConfig 0⟩

theorem fromPropertyTree_without_transSplineOrder (config : PropertyTree K)
    (indeterminate : Int) (opts : CalibratorOptions K)
    (h : CalibratorOptions.fromPropertyTree config indeterminate = .ok opts)
    (homit : config.ints "splines/transSplineOrder" = none) :
    opts.transSplineOrder = indeterminate := by
  have hf := (fromPropertyTree_fields config indeterminate opts h).2.2.2.2.2.2.2.2.2.2.2
  rw [hf]
  unfold PropertyTree.getIntDefault
  rw [homit]

/-- C11 (the code at the failing input): for the sample configuration that
omits `splines/transSplineOrder` and supplies all other keys, the construction
succeeds, and `transSplineOrder` is the value the unassigned member happens to
hold, here 7, whereas the default constructor assigns 4. -/
theorem transSplineOrder_default_is_indeterminate :
    (∃ opts : CalibratorOptions ℚ,
        CalibratorOptions.fromPropertyTree sampleConfigWithoutTransSplineOrder 7 = .ok opts
          ∧ opts.transSplineOrder = 7)
      ∧ sampleConfigWithoutTransSplineOrder.ints "splines/transSplineOrder" = none
      ∧ (∀ key ∈ requiredKeys, ¬ sampleConfigWithoutTransSplineOrder.missing key)
      ∧ (CalibratorOptions.default : CalibratorOptions ℚ).transSplineOrder = 4 := by
  refine ⟨⟨_, rfl, rfl⟩, rfl, ?_, rfl⟩
  intro key hkey
  simp only [requiredKeys, List.mem_cons, List.mem_singleton, List.not_mem_nil,
    or_false] at hkey
  rcases hkey with h | h | h | h | h | h | h | h | h | h | h <;> subst h <;>
    simp [PropertyTree.missing, sampleConfigWithoutTransSplineOrder]

end OptionsLemmas

/-! ## Optimizer set-up -/

section OptimizerLemmas

/-- C12: for every input that reaches the optimisation step (whatever the
parsed sequences, the environment and the default values of the option
structures), the options with which the optimizer is constructed have
Levenberg-Marquardt damping disabled and select the sparse QR linear solver;
the problem optimized is the assembled one. -/
theorem optimizer_runs_gauss_newton_sparse_qr {K : Type} [LinearOrderedField K]
    (defaults : Optimizer2Options) (solverDefaults : SparseQRLinearSolverOptions)
    (ext : Externals K) (timestampsParse : List K)
    (posesParse velocityParse : List (Vec6 K)) (odometryParse : List (Vec5 K)) :
    (setupOptimizer defaults solverDefaults
        (assembleProblem ext timestampsParse posesParse velocityParse
          odometryParse).problem).options.doLevenbergMarquardt = false
      ∧ (setupOptimizer defaults solverDefaults
          (assembleProblem ext timestampsParse posesParse velocityParse
            odometryParse).problem).options.linearSolver = "sparse_qr"
      ∧ (setupOptimizer defaults solverDefaults
          (assembleProblem ext timestampsParse posesParse velocityParse
            odometryParse).problem).problem
        = (assembleProblem ext timestampsParse posesParse velocityParse
            odometryParse).problem :=
  ⟨rfl, rfl, rfl⟩

end OptimizerLemmas

/-! ## Log parsing -/

section ParsingLemmas

variable {S K : Type} [LinearOrderedField K]

theorem parseHeader_eof (ls : LogStream S K) (px : ParseExternals K) (s0 s1 : S)
    (car : CarParameters K) (imuOdo : ImuOdometryTransformation K)
    (h : parseHeader ls px s0 = some (car, imuOdo, s1)) : ls.eof s1 = false := by
  unfold parseHeader at h
  simp only at h
  cases hc : parseCarParameters px (ls.getline (ls.getline (ls.getline s0).2).2).1 with
  | none =>
    rw [hc] at h
    simp at h
  | some c =>
    rw [hc] at h
    cases ht : parseTransformation px
        (ls.getline (ls.getline (ls.getline (ls.getline s0).2).2).2).1 with
    | none =>
      rw [ht] at h
      simp at h
    | some t =>
      rw [ht] at h
      simp only at h
      split_ifs at h with h0 h1 h2 h3 h4 h5
      simp only [Option.some.injEq, Prod.mk.injEq] at h
      rw [← h.2.2]
      simpa using h5

theorem dataLoopBody_lengths (ls : LogStream S K) (px : ParseExternals K)
    (st : ParseState S K) :
    (dataLoopBody ls px st).timestampsParse.length = st.timestampsParse.length + 1
      ∧ (dataLoopBody ls px st).posesParse.length = st.posesParse.length + 1
      ∧ (dataLoopBody ls px st).velocityParse.length = st.velocityParse.length + 1
      ∧ (dataLoopBody ls px st).odometryParse.length = st.odometryParse.length + 1 := by
  simp [dataLoopBody]

theorem iterate_dataLoopBody_lengths (ls : LogStream S K) (px : ParseExternals K)
    (j : Nat) (st : ParseState S K) :
    ((dataLoopBody ls px)^[j] st).timestampsParse.length = st.timestampsParse.length + j
      ∧ ((dataLoopBody ls px)^[j] st).posesParse.length = st.posesParse.length + j
      ∧ ((dataLoopBody ls px)^[j] st).velocityParse.length = st.velocityParse.length + j
      ∧ ((dataLoopBody ls px)^[j] st).odometryParse.length
        = st.odometryParse.length + j := by
  induction j with
  | zero => simp
  | succ j ih =>
    rw [Function.iterate_succ_apply']
    obtain ⟨h1, h2, h3, h4⟩ := dataLoopBody_lengths ls px ((dataLoopBody ls px)^[j] st)
    obtain ⟨i1, i2, i3, i4⟩ := ih
    rw [h1, h2, h3, h4, i1, i2, i3, i4]
    refine ⟨?_, ?_, ?_, ?_⟩ <;> omega

theorem dataLoop_result (ls : LogStream S K) (px : ParseExternals K) (fuel : Nat)
    (st out : ParseState S K) (iters : Nat)
    (h : dataLoop ls px fuel st = some (out, iters)) :
    out = (dataLoopBody ls px)^[iters] st ∧ ls.eof out.logFile = true
      ∧ (ls.eof st.logFile = false → 1 ≤ iters) := by
  induction fuel generalizing st out iters with
  | zero => simp [dataLoop] at h
  | succ fuel ih =>
    unfold dataLoop at h
    split_ifs at h with he
    · simp only [Option.some.injEq, Prod.mk.injEq] at h
      obtain ⟨h1, h2⟩ := h
      subst h1
      subst h2
      refine ⟨rfl, he, ?_⟩
      intro hne
      rw [he] at hne
      cases hne
    · rw [Option.map_eq_some'] at h
      obtain ⟨⟨out', iters'⟩, hrec, heq⟩ := h
      simp only [Prod.mk.injEq] at heq
      obtain ⟨h1, h2⟩ := heq
      subst h1
      subst h2
      obtain ⟨i1, i2, _⟩ := ih (dataLoopBody ls px st) out' iters' hrec
      refine ⟨?_, i2, fun _ => Nat.succ_le_succ (Nat.zero_le _)⟩
      rw [Function.iterate_succ_apply]
      exact i1

theorem dataLoop_terminates (ls : LogStream S K) (px : ParseExternals K) (k : Nat)
    (st : ParseState S K)
    (h : ls.eof ((dataLoopBody ls px)^[k] st).logFile = true) :
    ∃ out iters, dataLoop ls px (k + 1) st = some (out, iters) ∧ iters ≤ k := by
  induction k generalizing st with
  | zero =>
    refine ⟨st, 0, ?_, le_refl _⟩
    unfold dataLoop
    rw [if_pos (by simpa using h)]
  | succ k ih =>
    by_cases he : ls.eof st.logFile = true
    · refine ⟨st, 0, ?_, Nat.zero_le _⟩
      unfold dataLoop
      rw [if_pos he]
    · rw [Function.iterate_succ_apply] at h
      obtain ⟨out, iters, hrec, hle⟩ := ih (dataLoopBody ls px st) h
      refine ⟨out, iters + 1, ?_, Nat.succ_le_succ hle⟩
      rw [dataLoop, if_neg he, hrec]
      rfl

theorem popBack_of_length_pos {α : Type} (v : List α) (h : 0 < v.length) :
    popBack v = some v.dropLast := by
  unfold popBack
  cases v with
  | nil => simp at h
  | cons a v => simp

theorem kickOutLast_of_nonempty {F : Type} (st : ParseState S F) (n : Nat) (hn : 1 ≤ n)
    (h1 : st.timestampsParse.length = n) (h2 : st.posesParse.length = n)
    (h3 : st.velocityParse.length = n) (h4 : st.odometryParse.length = n) :
    ∃ out, kickOutLast st = some out
      ∧ out.timestampsParse.length = n - 1 ∧ out.posesParse.length = n - 1
      ∧ out.velocityParse.length = n - 1 ∧ out.odometryParse.length = n - 1 := by
  unfold kickOutLast
  rw [popBack_of_length_pos st.timestampsParse (by omega),
    popBack_of_length_pos st.posesParse (by omega),
    popBack_of_length_pos st.odometryParse (by omega),
    popBack_of_length_pos st.velocityParse (by omega)]
  refine ⟨_, rfl, ?_, ?_, ?_, ?_⟩ <;> simp [List.length_dropLast, h1, h2, h3, h4]

/-- C17: for every log that passes header parsing, end-of-file is not set
when the data loop is first tested, so its body runs at least once; each
iteration appends exactly one element to each of the four sequences, which
therefore all have length `j` after `j` iterations; when the loop has ended
after `iterations` iterations, `iterations ≥ 1`, the four sequences have this
length, the four `pop_back` calls are defined and leave all four with length
`iterations - 1`; and the loop does end once an iteration has set
end-of-file. -/
theorem data_loop_parallel_arrays (ls : LogStream S K) (px : ParseExternals K)
    (s0 s1 : S) (car : CarParameters K) (imuOdo : ImuOdometryTransformation K)
    (hheader : parseHeader ls px s0 = some (car, imuOdo, s1)) :
    ls.eof s1 = false
      ∧ (∀ fuel : Nat, dataLoop ls px (fuel + 1) (ParseState.initial s1)
          = (dataLoop ls px fuel (dataLoopBody ls px (ParseState.initial s1))).map
              (fun r => (r.1, r.2 + 1)))
      ∧ (∀ st : ParseState S K,
          (dataLoopBody ls px st).timestampsParse.length = st.timestampsParse.length + 1
            ∧ (dataLoopBody ls px st).posesParse.length = st.posesParse.length + 1
            ∧ (dataLoopBody ls px st).velocityParse.length = st.velocityParse.length + 1
            ∧ (dataLoopBody ls px st).odometryParse.length = st.odometryParse.length + 1)
      ∧ (∀ j : Nat,
          ((dataLoopBody ls px)^[j] (ParseState.initial s1)).timestampsParse.length = j
            ∧ ((dataLoopBody ls px)^[j] (ParseState.initial s1)).posesParse.length = j
            ∧ ((dataLoopBody ls px)^[j] (ParseState.initial s1)).velocityParse.length = j
            ∧ ((dataLoopBody ls px)^[j] (ParseState.initial s1)).odometryParse.length = j)
      ∧ (∀ (fuel : Nat) (st : ParseState S K) (iterations : Nat),
          dataLoop ls px fuel (ParseState.initial s1) = some (st, iterations) →
          1 ≤ iterations
            ∧ st.timestampsParse.length = iterations
            ∧ st.posesParse.length = iterations
            ∧ st.velocityParse.length = iterations
            ∧ st.odometryParse.length = iterations
            ∧ ∃ out, kickOutLast st = some out
                ∧ out.timestampsParse.length = iterations - 1
                ∧ out.posesParse.length = iterations - 1
                ∧ out.velocityParse.length = iterations - 1
                ∧ out.odometryParse.length = iterations - 1)
      ∧ (∀ k : Nat, ls.eof ((dataLoopBody ls px)^[k] (ParseState.initial s1)).logFile = true →
          ∃ st iterations, dataLoop ls px (k + 1) (ParseState.initial s1) = some (st, iterations)) := by
  have heof := parseHeader_eof ls px s0 s1 car imuOdo hheader
  have hinit : ∀ j : Nat,
      ((dataLoopBody ls px)^[j] (ParseState.initial s1)).timestampsParse.length = j
        ∧ ((dataLoopBody ls px)^[j] (ParseState.initial s1)).posesParse.length = j
        ∧ ((dataLoopBody ls px)^[j] (ParseState.initial s1)).velocityParse.length = j
        ∧ ((dataLoopBody ls px)^[j] (ParseState.initial s1)).odometryParse.length = j := by
    intro j
    have h := iterate_dataLoopBody_lengths ls px j (ParseState.initial s1)
    simpa [ParseState.initial] using h
  refine ⟨heof, ?_, dataLoopBody_lengths ls px, hinit, ?_, ?_⟩
  · intro fuel
    rw [dataLoop, if_neg (by simp [ParseState.initial, heof])]
  · intro fuel st iterations h
    obtain ⟨hst, _, hpos⟩ := dataLoop_result ls px fuel (ParseState.initial s1) st
      iterations h
    have h1 : 1 ≤ iterations := hpos (by simp [ParseState.initial, heof])
    obtain ⟨l1, l2, l3, l4⟩ := hinit iterations
    rw [← hst] at l1 l2 l3 l4
    exact ⟨h1, l1, l2, l3, l4, kickOutLast_of_nonempty st iterations h1 l1 l2 l3 l4⟩
  · intro k hk
    obtain ⟨out, iterations, h, _⟩ := dataLoop_terminates ls px k (ParseState.initial s1) hk
    exact ⟨out, iterations, h⟩

theorem sample_dataLoop_iterations :
    (dataLoop sampleStream sampleParseExternals 3 (ParseState.initial 19)).map
      (fun r => r.2) = some 2 := by
  rfl

/-- C17 witness: the sample stream with 24 items, of which the header takes 5;
the data loop then runs twice. -/
theorem data_loop_parallel_arrays_witness :
    (dataLoop sampleStream sampleParseExternals 3 (ParseState.initial 19)).map
        (fun r => r.2) = some 2
      ∧ (
    sampleStream.eof 19 = false
      ∧ (∀ fuel : Nat, dataLoop sampleStream sampleParseExternals (fuel + 1) (ParseState.initial 19)
          = (dataLoop sampleStream sampleParseExternals fuel (dataLoopBody sampleStream sampleParseExternals (ParseState.initial 19))).map
              (fun r => (r.1, r.2 + 1)))
      ∧ (∀ st : ParseState Nat ℚ,
          (dataLoopBody sampleStream sampleParseExternals st).timestampsParse.length = st.timestampsParse.length + 1
            ∧ (dataLoopBody sampleStream sampleParseExternals st).posesParse.length = st.posesParse.length + 1
            ∧ (dataLoopBody sampleStream sampleParseExternals st).velocityParse.length = st.velocityParse.length + 1
            ∧ (dataLoopBody sampleStream sampleParseExternals st).odometryParse.length = st.odometryParse.length + 1)
      ∧ (∀ j : Nat,
          ((dataLoopBody sampleStream sampleParseExternals)^[j] (ParseState.initial 19)).timestampsParse.length = j
            ∧ ((dataLoopBody sampleStream sampleParseExternals)^[j] (ParseState.initial 19)).posesParse.length = j
            ∧ ((dataLoopBody sampleStream sampleParseExternals)^[j] (ParseState.initial 19)).velocityParse.length = j
            ∧ ((dataLoopBody sampleStream sampleParseExternals)^[j] (ParseState.initial 19)).odometryParse.length = j)
      ∧ (∀ (fuel : Nat) (st : ParseState Nat ℚ) (iterations : Nat),
          dataLoop sampleStream sampleParseExternals fuel (ParseState.initial 19) = some (st, iterations) →
          1 ≤ iterations
            ∧ st.timestampsParse.length = iterations
            ∧ st.posesParse.length = iterations
            ∧ st.velocityParse.length = iterations
            ∧ st.odometryParse.length = iterations
            ∧ ∃ out, kickOutLast st = some out
                ∧ out.timestampsParse.length = iterations - 1
                ∧ out.posesParse.length = iterations - 1
                ∧ out.velocityParse.length = iterations - 1
                ∧ out.odometryParse.length = iterations - 1)
      ∧ (∀ k : Nat, sampleStream.eof ((dataLoopBody sampleStream sampleParseExternals)^[k] (ParseState.initial 19)).logFile = true →
          ∃ st iterations, dataLoop sampleStream sampleParseExternals (k + 1) (ParseState.initial 19) = some (st, iterations))) :=
  ⟨sample_dataLoop_iterations,
    data_loop_parallel_arrays sampleStream sampleParseExternals 24 19 _ _ rfl⟩

end ParsingLemmas

end Aslam
